import Mathlib

/-!
Verification of the `hlid` package (`src/hlid/__init__.py`, version 0.2.2).

The development shallowly embeds the Python code over `List Char` strings and
`Nat`/`Int` arithmetic:

* Python `str` values are `List Char` (`Str`); slicing, `split`, `join`,
  `replace`, `lower` and lexicographic comparison are modelled explicitly.
* `int(s)` and `int(s, 16)` are modelled by `pyInt` / `pyIntHex`, including
  CPython's acceptance of surrounding ASCII whitespace, a sign, a `0x` base
  marker, and single underscores between digits.
* The external collaborators (the ``hashlib``/``hmac`` HMAC-SHA256 primitive,
  the ``uuid4`` random source, and the UTC clock) are modelled concretely:
  HMAC-SHA256 by an executable FIPS-180-4 implementation, `uuid4` by its
  textual formatting applied to the 16 random bytes it draws, and the clock
  by passing the current `PyDT` timestamp as an explicit argument.
* Exceptions raised by `HLID.__init__` and the accessors become `Except`
  results, one error constructor per distinct `raise` site.
-/

abbrev Str := List Char

/-! ### SHA-256 and HMAC (the `hashlib`/`hmac` collaborators)

Executable model of the keyed-hash primitive used by
`_trunc_sha256_hmac_else_nonce`: FIPS-180-4 SHA-256 over byte lists
(bytes are `Nat` values `< 256`), and RFC-2104 HMAC on top of it.
-/

def w32 (x : Nat) : Nat := x % 4294967296

def rotr (n x : Nat) : Nat := w32 ((x >>> n) ||| (x <<< (32 - n)))

def shaCh (x y z : Nat) : Nat := (x &&& y) ^^^ ((x ^^^ 4294967295) &&& z)

def shaMaj (x y z : Nat) : Nat := (x &&& y) ^^^ (x &&& z) ^^^ (y &&& z)

def bigSigma0 (x : Nat) : Nat := rotr 2 x ^^^ rotr 13 x ^^^ rotr 22 x

def bigSigma1 (x : Nat) : Nat := rotr 6 x ^^^ rotr 11 x ^^^ rotr 25 x

def smallSigma0 (x : Nat) : Nat := rotr 7 x ^^^ rotr 18 x ^^^ (x >>> 3)

def smallSigma1 (x : Nat) : Nat := rotr 17 x ^^^ rotr 19 x ^^^ (x >>> 10)

def shaK : List Nat :=
  [1116352408, 1899447441, 3049323471, 3921009573, 961987163, 1508970993,
   2453635748, 2870763221, 3624381080, 310598401, 607225278, 1426881987,
   1925078388, 2162078206, 2614888103, 3248222580, 3835390401, 4022224774,
   264347078, 604807628, 770255983, 1249150122, 1555081692, 1996064986,
   2554220882, 2821834349, 2952996808, 3210313671, 3336571891, 3584528711,
   113926993, 338241895, 666307205, 773529912, 1294757372, 1396182291,
   1695183700, 1986661051, 2177026350, 2456956037, 2730485921, 2820302411,
   3259730800, 3345764771, 3516065817, 3600352804, 4094571909, 275423344,
   430227734, 506948616, 659060556, 883997877, 958139571, 1322822218,
   1537002063, 1747873779, 1955562222, 2024104815, 2227730452, 2361852424,
   2428436474, 2756734187, 3204031479, 3329325298]

def shaH0 : List Nat :=
  [1779033703, 3144134277, 1013904242, 2773480762,
   1359893119, 2600822924, 528734635, 1541459225]

def shaPad (msg : List Nat) : List Nat :=
  let L := msg.length
  let k := (64 + 55 - L % 64) % 64
  msg ++ 0x80 :: List.replicate k 0 ++
    [((L * 8) >>> 56) % 256, ((L * 8) >>> 48) % 256, ((L * 8) >>> 40) % 256, ((L * 8) >>> 32) % 256,
     ((L * 8) >>> 24) % 256, ((L * 8) >>> 16) % 256, ((L * 8) >>> 8) % 256, (L * 8) % 256]

def bytesToWords : List Nat → List Nat
  | a :: b :: c :: d :: rest => (a * 16777216 + b * 65536 + c * 256 + d) :: bytesToWords rest
  | _ => []

/-- Message-schedule extension; `wsRev` holds the words produced so far, most
recent first, so `W[t-2]` is entry 1, `W[t-7]` entry 6, and so on. -/
def extendW : Nat → List Nat → List Nat
  | 0, wsRev => wsRev
  | n + 1, wsRev =>
    let wt := w32 (smallSigma1 (wsRev.getD 1 0) + wsRev.getD 6 0 +
                   smallSigma0 (wsRev.getD 14 0) + wsRev.getD 15 0)
    extendW n (wt :: wsRev)

def schedule (block : List Nat) : List Nat :=
  (extendW 48 (bytesToWords block).reverse).reverse

def shaRound (st : List Nat) (kw : Nat × Nat) : List Nat :=
  match st with
  | [a, b, c, d, e, f, g, h] =>
    let t1 := w32 (h + bigSigma1 e + shaCh e f g + kw.1 + kw.2)
    let t2 := w32 (bigSigma0 a + shaMaj a b c)
    [w32 (t1 + t2), a, b, c, w32 (d + t1), e, f, g]
  | s => s

def compress (H : List Nat) (block : List Nat) : List Nat :=
  let final := (List.zip shaK (schedule block)).foldl shaRound H
  (List.zip H final).map fun p => w32 (p.1 + p.2)

def shaBlocksAux : Nat → List Nat → List Nat → List Nat
  | 0, H, _ => H
  | n + 1, H, bytes => shaBlocksAux n (compress H (bytes.take 64)) (bytes.drop 64)

def sha256Bytes (msg : List Nat) : List Nat :=
  let padded := shaPad msg
  let H := shaBlocksAux (padded.length / 64) shaH0 padded
  (H.map fun w => [(w >>> 24) % 256, (w >>> 16) % 256, (w >>> 8) % 256, w % 256]).flatten

def hexDigitChar (n : Nat) : Char :=
  match n with
  | 0 => '0' | 1 => '1' | 2 => '2' | 3 => '3' | 4 => '4' | 5 => '5' | 6 => '6' | 7 => '7'
  | 8 => '8' | 9 => '9' | 10 => 'a' | 11 => 'b' | 12 => 'c' | 13 => 'd' | 14 => 'e' | _ => 'f'

/-- `bytes.hex()` / the hexadecimal digest rendering: two lowercase hex digits
per byte. -/
def hexCharList : List Char :=
  ['0', '1', '2', '3', '4', '5', '6', '7'] ++ ['8', '9', 'a', 'b', 'c', 'd', 'e', 'f']

def hexEncodeBytes (bs : List Nat) : Str :=
  (bs.map fun b => [hexDigitChar (b / 16 % 16), hexDigitChar (b % 16)]).flatten

/-- Python `str.encode()` (UTF-8). -/
def utf8Char (c : Char) : List Nat :=
  let n := c.toNat
  if n < 128 then [n]
  else if n < 2048 then [192 + n / 64, 128 + n % 64]
  else if n < 65536 then [224 + n / 4096, 128 + n / 64 % 64, 128 + n % 64]
  else [240 + n / 262144, 128 + n / 4096 % 64, 128 + n / 64 % 64, 128 + n % 64]

def utf8Encode (s : Str) : List Nat := (s.map utf8Char).flatten

def hmacSha256 (key msg : List Nat) : List Nat :=
  let k0 := if 64 < key.length then sha256Bytes key else key
  let kPad := k0 ++ List.replicate (64 - k0.length) 0
  sha256Bytes ((kPad.map fun b => b ^^^ 92) ++
    sha256Bytes ((kPad.map fun b => b ^^^ 54) ++ msg))

/-- `hmac.new(secret.encode(), msg=value.encode(), digestmod=hashlib.sha256).hexdigest()`. -/
def hmacSha256Hex (secret msg : Str) : Str :=
  hexEncodeBytes (hmacSha256 (utf8Encode secret) (utf8Encode msg))

/-- `str(uuid.UUID(bytes=...))`: the 16 bytes rendered as 32 lowercase hex
digits, hyphen-grouped 8-4-4-4-12.  `uuid4()` draws 16 random bytes (with
version bits forced); `bs` stands for those final bytes. -/
def uuid4Str (bs : List Nat) : Str :=
  let hx := hexEncodeBytes bs
  hx.take 8 ++ '-' :: ((hx.drop 8).take 4) ++ '-' :: ((hx.drop 12).take 4) ++
    '-' :: ((hx.drop 16).take 4) ++ '-' :: hx.drop 20

/-! ### Python string primitives -/

/-- Python slice `s[i:j]` (for `i ≤ j`; out-of-range indices clamp, as in
Python). -/
def pySlice (i j : Nat) (s : Str) : Str := (s.drop i).take (j - i)

/-- ASCII branch of `str.lower`; the code only ever lowercases hex digits,
hyphens and ASCII letters, where this coincides with Python. -/
def pyToLower (c : Char) : Char :=
  if 65 ≤ c.toNat ∧ c.toNat ≤ 90 then Char.ofNat (c.toNat + 32) else c

def pyLowerStr (s : Str) : Str := s.map pyToLower

/-- `str.split("-")`. -/
def splitH : Str → List Str
  | [] => [[]]
  | c :: rest =>
    if c = '-' then [] :: splitH rest
    else
      match splitH rest with
      | g :: gs => (c :: g) :: gs
      | [] => [[c]]

/-- `"-".join(...)`. -/
def joinH : List Str → Str
  | [] => []
  | [g] => g
  | g :: gs => g ++ '-' :: joinH gs

/-- `s.split("-")[-1]`; `split` never returns an empty list, so the default
is never used. -/
def pyLastGroup (v : Str) : Str := (splitH v).getLastD []

/-- Python `str` comparison `a < b`: strict lexicographic order on code
points, a proper head being smaller. -/
def lexLt : Str → Str → Bool
  | [], [] => false
  | [], _ :: _ => true
  | _ :: _, [] => false
  | a :: as, b :: bs => if a = b then lexLt as bs else decide (a.toNat < b.toNat)

def lexLe (a b : Str) : Bool := lexLt a b || decide (a = b)

/-! ### Python `int()` parsing -/

def isDigitC (c : Char) : Bool := 48 ≤ c.toNat && c.toNat ≤ 57

def digitVal (c : Char) : Nat := c.toNat - 48

def isHexDigitC (c : Char) : Bool :=
  isDigitC c || (97 ≤ c.toNat && c.toNat ≤ 102) || (65 ≤ c.toNat && c.toNat ≤ 70)

def hexVal (c : Char) : Nat :=
  if isDigitC c then c.toNat - 48 else if 97 ≤ c.toNat then c.toNat - 87 else c.toNat - 55

def isWS (c : Char) : Bool :=
  c.toNat = 32 || c.toNat = 9 || c.toNat = 10 || c.toNat = 13 || c.toNat = 11 || c.toNat = 12

def stripWS (s : Str) : Str := ((s.dropWhile isWS).reverse.dropWhile isWS).reverse

/-- Decimal digit run after the first digit: single underscores are allowed
between digits (CPython literal grammar), never leading, trailing or doubled. -/
def parseDigitsU (acc : Nat) : List Char → Option Nat
  | [] => some acc
  | c :: rest =>
    if c = '_' then
      match rest with
      | [] => none
      | c2 :: rest2 => if isDigitC c2 then parseDigitsU (acc * 10 + digitVal c2) rest2 else none
    else if isDigitC c then parseDigitsU (acc * 10 + digitVal c) rest else none

def parseDecFirst : List Char → Option Nat
  | [] => none
  | c :: rest => if isDigitC c then parseDigitsU (digitVal c) rest else none

/-- Python `int(s)` (base 10): optional surrounding whitespace, optional
sign, then a digit run. -/
def pyInt (s : Str) : Option Int :=
  match stripWS s with
  | [] => none
  | c :: rest =>
    if c = '+' then (parseDecFirst rest).map Int.ofNat
    else if c = '-' then (parseDecFirst rest).map fun n => -(n : Int)
    else (parseDecFirst (c :: rest)).map Int.ofNat

def parseHexDigitsU (acc : Nat) : List Char → Option Nat
  | [] => some acc
  | c :: rest =>
    if c = '_' then
      match rest with
      | [] => none
      | c2 :: rest2 => if isHexDigitC c2 then parseHexDigitsU (acc * 16 + hexVal c2) rest2 else none
    else if isHexDigitC c then parseHexDigitsU (acc * 16 + hexVal c) rest else none

def parseHexFirst : List Char → Option Nat
  | [] => none
  | c :: rest => if isHexDigitC c then parseHexDigitsU (hexVal c) rest else none

/-- Hex digit run with an optional `0x`/`0X` base marker (an underscore may
follow the marker). -/
def parseHexNoSign (l : List Char) : Option Nat :=
  match l with
  | '0' :: c :: rest =>
    if c = 'x' ∨ c = 'X' then
      match rest with
      | '_' :: rest2 => parseHexFirst rest2
      | _ => parseHexFirst rest
    else parseHexFirst ('0' :: c :: rest)
  | l => parseHexFirst l

/-- Python `int(s, 16)`. -/
def pyIntHex (s : Str) : Option Int :=
  match stripWS s with
  | [] => none
  | c :: rest =>
    if c = '+' then (parseHexNoSign rest).map Int.ofNat
    else if c = '-' then (parseHexNoSign rest).map fun n => -(n : Int)
    else (parseHexNoSign (c :: rest)).map Int.ofNat

/-- Fixed-width zero-padded decimal rendering: `pad k n` models Python
`f"{n:0kd}"` and the zero-padded `strftime` fields for `n < 10^k` (every use
in the code satisfies that bound). -/
def pad : Nat → Nat → Str
  | 0, _ => []
  | k + 1, n => pad k (n / 10) ++ [hexDigitChar (n % 10)]

/-! ### `datetime` model

A `PyDT` is a `datetime.datetime`: calendar fields plus `tzinfo`, the latter
modelled by its `utcoffset()` in whole seconds (`none` = naive).
-/

structure PyDT where
  year : Nat
  month : Nat
  day : Nat
  hour : Nat
  minute : Nat
  second : Nat
  microsecond : Nat
  tzOffset : Option Int
deriving DecidableEq, Repr

def isLeapYear (y : Nat) : Bool := y % 4 = 0 && (y % 100 ≠ 0 || y % 400 = 0)

def daysInMonth (y m : Nat) : Nat :=
  if m = 2 then (if isLeapYear y then 29 else 28)
  else if m = 4 ∨ m = 6 ∨ m = 9 ∨ m = 11 then 30
  else 31

inductive DTErr where
  /-- a plain `ValueError` out of `int(...)` or the `datetime` constructor -/
  | valueError
  /-- `"HLID subsecond value out of range"` (line 209) -/
  | subsecondOutOfRange
deriving DecidableEq, Repr

/-- `datetime(year=..., ..., tzinfo=timezone.utc)`: the constructor's own
range validation (`MINYEAR = 1`, `MAXYEAR = 9999`), raising `ValueError`
outside it. -/
def mkDatetimeUtc (y mo d hh mi s micro : Int) : Except DTErr PyDT :=
  if 1 ≤ y ∧ y ≤ 9999 ∧ 1 ≤ mo ∧ mo ≤ 12 ∧ 1 ≤ d ∧ d ≤ (daysInMonth y.toNat mo.toNat : Int) ∧
     0 ≤ hh ∧ hh ≤ 23 ∧ 0 ≤ mi ∧ mi ≤ 59 ∧ 0 ≤ s ∧ s ≤ 59 ∧ 0 ≤ micro ∧ micro ≤ 999999 then
    .ok ⟨y.toNat, mo.toNat, d.toNat, hh.toNat, mi.toNat, s.toNat, micro.toNat, some 0⟩
  else .error .valueError

/-- Days since 1970-01-01 of a civil date (Howard Hinnant's
`days_from_civil`; exact for `y ≥ 1`, the `datetime` range). -/
def daysFromCivil (y m d : Nat) : Int :=
  let y' := if m ≤ 2 then y - 1 else y
  let era := y' / 400
  let yoe := y' % 400
  let mp := (m + 9) % 12
  let doy := (153 * mp + 2) / 5 + d - 1
  let doe := yoe * 365 + yoe / 4 - yoe / 100 + doy
  (era * 146097 + doe : Int) - 719468

/-- Civil date of a day count since 1970-01-01 (`civil_from_days`). -/
def civilFromDays (z : Int) : Nat × Nat × Nat :=
  let zn := (z + 719468).toNat
  let era := zn / 146097
  let doe := zn % 146097
  let yoe := (doe - doe / 1460 + doe / 36524 - doe / 146096) / 365
  let y := yoe + era * 400
  let doy := doe - (365 * yoe + yoe / 4 - yoe / 100)
  let mp := (5 * doy + 2) / 153
  let d := doy - (153 * mp + 2) / 5 + 1
  let m := if mp < 10 then mp + 3 else mp - 9
  (if m ≤ 2 then y + 1 else y, m, d)

/-- Microseconds since the epoch of an aware datetime (its fields read as
local to its `utcoffset`). -/
def toEpochMicros (dt : PyDT) : Int :=
  ((daysFromCivil dt.year dt.month dt.day) * 86400 +
      (dt.hour * 3600 + dt.minute * 60 + dt.second : Nat)) * 1000000 +
    dt.microsecond - (dt.tzOffset.getD 0) * 1000000

def fromEpochMicrosUtc (t : Int) : PyDT :=
  let micro := (t.emod 1000000).toNat
  let secs := t.ediv 1000000
  let s := (secs.emod 60).toNat
  let mins := secs.ediv 60
  let mi := (mins.emod 60).toNat
  let hrs := mins.ediv 60
  let hh := (hrs.emod 24).toNat
  let days := hrs.ediv 24
  let ymd := civilFromDays days
  ⟨ymd.1, ymd.2.1, ymd.2.2, hh, mi, s, micro, some 0⟩

/-- `dt.astimezone(timezone.utc)` for an aware `dt`. -/
def astimezoneUtc (dt : PyDT) : PyDT := fromEpochMicrosUtc (toEpochMicros dt)

/-! ### The `HLID` class -/

inductive PyErr where
  /-- `"HLID user-data cannot be empty."` (line 37) -/
  | emptyUserData
  /-- `"HLID user-data must be exactly 2 characters"` (line 39) -/
  | userDataLength
  /-- `"HLID user-data must be lowercase"` (line 41) -/
  | userDataCase
  /-- `"HLID user-data must contain only hex characters"` (line 45) -/
  | userDataChars
  /-- `"HLID invalid, be lowercase hex chars only."` (line 49) -/
  | mustBeLowercase
  /-- `"HLID secret too short"` (line 62) -/
  | secretTooShort
  /-- `"HLID fails HMAC check."` (line 69) -/
  | hmacCheckFailed
  /-- `"HLID invalid value."` (line 74) -/
  | invalidValue
  /-- `"datetime must have timezone information"` (line 237) -/
  | missingTimezone
deriving DecidableEq, Repr

structure HLID where
  _value : Str
  _is_signed : Bool
deriving DecidableEq, Repr

/-- Property `hex` (lines 154-160): `str(self._value).replace("-", "")`. -/
def HLID.hex (h : HLID) : Str := h._value.filter fun c => c ≠ '-'

/-- Property `user_data` (lines 162-172): `self._value[21:23]`. -/
def HLID.user_data (h : HLID) : Str := pySlice 21 23 h._value

/-- Property `datetime` (lines 190-220). -/
def HLID.datetime (h : HLID) : Except DTErr PyDT :=
  let subsecond_str := (pySlice 16 21 h._value).filter fun c => c ≠ '-'
  match pyInt subsecond_str with
  | none => .error .valueError
  | some subsecond_value =>
    if subsecond_value > 9999 then .error .subsecondOutOfRange
    else
      match pyInt (pySlice 0 4 h._value), pyInt (pySlice 4 6 h._value),
            pyInt (pySlice 6 8 h._value), pyInt (pySlice 9 11 h._value),
            pyInt (pySlice 11 13 h._value), pyInt (pySlice 14 16 h._value) with
      | some y, some mo, some d, some hh, some mi, some s =>
        mkDatetimeUtc y mo d hh mi s (subsecond_value * 100)
      | _, _, _, _, _, _ => .error .valueError

/-- `_trunc_sha256_hmac_else_nonce` (lines 273-279).  `uuidBytes` stands for
the 16 random bytes `uuid4()` would draw in the no-secret branch. -/
def trunc_sha256_hmac_else_nonce (uuidBytes : List Nat) (value : Str) (secret : Str) : Str :=
  if secret = [] then pyLastGroup (uuid4Str uuidBytes)
  else (hmacSha256Hex secret value).take 12

/-- User-data validation, `__init__` lines 36-45, in source order. -/
def checkUserData (user_data : Str) : Option PyErr :=
  if user_data = [] then some .emptyUserData
  else if user_data.length ≠ 2 then some .userDataLength
  else if pyLowerStr user_data ≠ user_data then some .userDataCase
  else if pyIntHex user_data = none then some .userDataChars
  else none

/-- The 32-character "transmorph" of `__init__` line 51:
`f"{value[0:8]}-{value[8:12]}-{value[12:16]}-{value[16:20]}-{value[20:32]}"`. -/
def transmorph (v : Str) : Str :=
  if v.length = 32 then
    pySlice 0 8 v ++ '-' :: pySlice 8 12 v ++ '-' :: pySlice 12 16 v ++
      '-' :: pySlice 16 20 v ++ '-' :: pySlice 20 32 v
  else v

/-- `ts.strftime("%Y%m%d-%H%M-%S")`.  `%Y` is modelled as 4-digit
zero-padded (exact for year ≥ 1000; below that CPython's output is
platform-dependent). -/
def fmtYmdHmsStr (u : PyDT) : Str :=
  pad 4 u.year ++ pad 2 u.month ++ pad 2 u.day ++
    '-' :: (pad 2 u.hour ++ pad 2 u.minute) ++ '-' :: pad 2 u.second

/--
`HLID.__init__` (lines 34-74).  The two I/O capabilities are explicit
arguments: `ts` is the `datetime.now(timezone.utc)` reading and `uuidBytes`
the 16 random bytes behind `uuid4()` (both used only on the generate branch
without a secret).  The final `try: _ = self.age` check succeeds exactly when
the `datetime` property does: `age` only subtracts the result from the
current time, which cannot raise.
-/
def HLID.init (ts : PyDT) (uuidBytes : List Nat) (value : Option Str) (secret : Str)
    (user_data : Str) : Except PyErr HLID :=
  match checkUserData user_data with
  | some e => .error e
  | none =>
    -- `if value:` — Python truthiness: both `None` and `""` take the else branch
    let v0 := value.getD []
    let valE : Except PyErr Str :=
      if v0 ≠ [] then
        if pyLowerStr v0 ≠ v0 then .error .mustBeLowercase
        else .ok (transmorph v0)
      else
        let ts_subseconds := (pad 6 ts.microsecond).take 4  -- ts.strftime("%f")[0:4]
        let hlid_ts := fmtYmdHmsStr ts ++ ts_subseconds.take 2 ++
          '-' :: (ts_subseconds.drop 2 ++ user_data)
        let suffix := trunc_sha256_hmac_else_nonce uuidBytes hlid_ts secret
        .ok (hlid_ts ++ '-' :: suffix)
    match valE with
    | .error e => .error e
    | .ok val =>
      -- `if secret:` — same truthiness
      let signedE : Except PyErr Bool :=
        if secret ≠ [] then
          if secret.length < 16 then .error .secretTooShort
          else
            let hlid_ts := joinH (splitH val).dropLast
            let hlid_sign := pyLastGroup val
            if hlid_sign ≠ trunc_sha256_hmac_else_nonce uuidBytes hlid_ts secret then
              .error .hmacCheckFailed
            else .ok true
        else .ok false
      match signedE with
      | .error e => .error e
      | .ok signed =>
        match HLID.datetime ⟨val, signed⟩ with
        | .error _ => .error .invalidValue
        | .ok _ => .ok ⟨val, signed⟩

/-- `HLID.from_datetime` (lines 222-267). -/
def HLID.from_datetime (uuidBytes : List Nat) (dt : PyDT) (user_data : Str)
    (secret : Str) : Except PyErr HLID :=
  if dt.tzOffset = none then .error .missingTimezone
  else
    let dt_utc := astimezoneUtc dt
    let subsecond_value := dt_utc.microsecond / 100
    let subsecond_str := pad 4 subsecond_value
    match checkUserData user_data with
    | some e => .error e
    | none =>
      let hlid_ts := fmtYmdHmsStr dt_utc ++ subsecond_str.take 2 ++
        '-' :: (subsecond_str.drop 2 ++ user_data)
      let suffix := trunc_sha256_hmac_else_nonce uuidBytes hlid_ts secret
      -- `return cls(value=hlid_value, secret=secret)` — user_data left at its default
      HLID.init dt_utc uuidBytes (some (hlid_ts ++ '-' :: suffix)) secret ['0', '0']

/-! ### Comparison protocol -/

/-- The values an `HLID` may be compared against: another `HLID` or some
non-`HLID` Python object (string, int, `None`). -/
inductive PyVal where
  | hlidVal (h : HLID)
  | strVal (s : Str)
  | intVal (n : Int)
  | noneVal
deriving DecidableEq, Repr

def PyVal.isHLID : PyVal → Bool
  | .hlidVal _ => true
  | _ => false

/-- `__eq__` (lines 87-96): `False` on non-`HLID`, value comparison otherwise. -/
def HLID.eqPy (h : HLID) : PyVal → Bool
  | .hlidVal o => decide (h._value = o._value)
  | _ => false

/-- `__lt__` (lines 106-116): `NotImplemented` on a non-`HLID` operand — the
interpreter then raises `TypeError`, modelled by `none`. -/
def HLID.ltPy (h : HLID) : PyVal → Option Bool
  | .hlidVal o => some (lexLt h._value o._value)
  | _ => none

/-- `__le__` (lines 118-128). -/
def HLID.lePy (h : HLID) : PyVal → Option Bool
  | .hlidVal o => some (lexLe h._value o._value)
  | _ => none

/-- `__gt__` (lines 130-140). -/
def HLID.gtPy (h : HLID) : PyVal → Option Bool
  | .hlidVal o => some (lexLt o._value h._value)
  | _ => none

/-- `__ge__` (lines 142-152). -/
def HLID.gePy (h : HLID) : PyVal → Option Bool
  | .hlidVal o => some (lexLe o._value h._value)
  | _ => none

/-! ### Derived shapes used in statements -/

/-- Lowercase hex digit (`0-9a-f`), the character set of canonical values. -/
def isHexLowerC (c : Char) : Bool :=
  isDigitC c || (97 ≤ c.toNat && c.toNat ≤ 102)

/-- Field ranges guaranteed by Python's `datetime` type for every instance. -/
abbrev validDT (u : PyDT) : Prop :=
  1 ≤ u.year ∧ u.year ≤ 9999 ∧ 1 ≤ u.month ∧ u.month ≤ 12 ∧
    1 ≤ u.day ∧ u.day ≤ daysInMonth u.year u.month ∧
    u.hour ≤ 23 ∧ u.minute ≤ 59 ∧ u.second ≤ 59 ∧ u.microsecond ≤ 999999

/-- The `hlid_ts` string both generator paths build for a timestamp `u` and
user data `ud`: `strftime("%Y%m%d-%H%M-%S")`, then the 4-digit 10⁻⁴-second
field split 2+2 around a hyphen, then `ud`. -/
def encTsStr (u : PyDT) (ud : Str) : Str :=
  fmtYmdHmsStr u ++ (pad 4 (u.microsecond / 100)).take 2 ++
    '-' :: ((pad 4 (u.microsecond / 100)).drop 2 ++ ud)

/-- A full generated value: `hlid_ts` plus the hyphen-separated suffix. -/
def encValue (u : PyDT) (ud suf : Str) : Str := encTsStr u ud ++ '-' :: suf

/-- The timestamp a value encodes, collapsed to one number that orders
exactly like the tuple (year, month, day, hour, minute, second,
10⁻⁴-seconds).  "`x`'s encoded timestamp is earlier than `y`'s" is
`tsKey x < tsKey y`. -/
def tsKey (u : PyDT) : Nat :=
  ((((((u.year * 100 + u.month) * 100 + u.day) * 100 + u.hour) * 100 +
      u.minute) * 100 + u.second) * 10000) + u.microsecond / 100

/-! ## Lemmas: characters, digits and `pad` -/

theorem char_ne {c d : Char} (h : c.toNat ≠ d.toNat) : c ≠ d :=
  fun e => h (congrArg Char.toNat e)

theorem hexDigitChar_mem (n : Nat) :
    hexDigitChar n ∈ hexCharList := by
  rcases n with _|_|_|_|_|_|_|_|_|_|_|_|_|_|_|n
  · decide
  · decide
  · decide
  · decide
  · decide
  · decide
  · decide
  · decide
  · decide
  · decide
  · decide
  · decide
  · decide
  · decide
  · decide
  · exact (by decide : ('f' : Char) ∈ hexCharList)

theorem hexDigitChar_props (n : Nat) :
    isHexLowerC (hexDigitChar n) = true ∧ hexDigitChar n ≠ '-' ∧
      isWS (hexDigitChar n) = false ∧
      ((hexDigitChar n).toNat < 65 ∨ 90 < (hexDigitChar n).toNat) := by
  have h := hexDigitChar_mem n
  simp only [hexCharList, List.mem_append, List.mem_cons, List.not_mem_nil, or_false] at h
  rcases h with (h|h|h|h|h|h|h|h)|(h|h|h|h|h|h|h|h) <;> rw [h] <;>
    exact ⟨by decide, by decide, by decide, by decide⟩

theorem digit_facts : ∀ r, r < 10 →
    isDigitC (hexDigitChar r) = true ∧ digitVal (hexDigitChar r) = r := by decide

theorem digit_lt_iff : ∀ r, r < 10 → ∀ s, s < 10 →
    (((hexDigitChar r).toNat < (hexDigitChar s).toNat) ↔ r < s) := by decide

theorem digit_eq_iff : ∀ r, r < 10 → ∀ s, s < 10 →
    ((hexDigitChar r = hexDigitChar s) ↔ r = s) := by decide

theorem isDigitC_props {c : Char} (h : isDigitC c = true) :
    isWS c = false ∧ c ≠ '+' ∧ c ≠ '-' ∧ c ≠ '_' ∧ (c.toNat < 65 ∨ 90 < c.toNat) := by
  simp only [isDigitC, Bool.and_eq_true, decide_eq_true_eq] at h
  refine ⟨?_, ?_, ?_, ?_, by omega⟩
  · simp only [isWS, Bool.or_eq_false_iff, decide_eq_false_iff_not]
    omega
  · exact char_ne (by have e : ('+').toNat = 43 := rfl; omega)
  · exact char_ne (by have e : ('-').toNat = 45 := rfl; omega)
  · exact char_ne (by have e : ('_').toNat = 95 := rfl; omega)

theorem isHexLowerC_props {c : Char} (h : isHexLowerC c = true) :
    isWS c = false ∧ c ≠ '+' ∧ c ≠ '-' ∧ c ≠ '_' ∧ (c.toNat < 65 ∨ 90 < c.toNat) := by
  simp only [isHexLowerC, isDigitC, Bool.or_eq_true, Bool.and_eq_true, decide_eq_true_eq] at h
  refine ⟨?_, ?_, ?_, ?_, by omega⟩
  · simp only [isWS, Bool.or_eq_false_iff, decide_eq_false_iff_not]
    omega
  · exact char_ne (by have e : ('+').toNat = 43 := rfl; omega)
  · exact char_ne (by have e : ('-').toNat = 45 := rfl; omega)
  · exact char_ne (by have e : ('_').toNat = 95 := rfl; omega)

theorem pyToLower_eq_self {c : Char} (h : c.toNat < 65 ∨ 90 < c.toNat) : pyToLower c = c := by
  unfold pyToLower
  rw [if_neg (by omega)]

theorem pyLowerStr_eq_self {l : Str} (h : ∀ c ∈ l, c.toNat < 65 ∨ 90 < c.toNat) :
    pyLowerStr l = l := by
  induction l with
  | nil => rfl
  | cons c t ih =>
    simp only [pyLowerStr, List.map_cons]
    rw [pyToLower_eq_self (h c (List.mem_cons_self ..)),
      show List.map pyToLower t = pyLowerStr t from rfl,
      ih fun c hc => h c (List.mem_cons_of_mem _ hc)]

theorem pad_length (k n : Nat) : (pad k n).length = k := by
  induction k generalizing n with
  | zero => rfl
  | succ k ih => simp [pad, ih]

theorem mem_pad {c : Char} {k n : Nat} (h : c ∈ pad k n) :
    ∃ r, r < 10 ∧ c = hexDigitChar r := by
  induction k generalizing n with
  | zero => simp [pad] at h
  | succ k ih =>
    simp only [pad, List.mem_append, List.mem_singleton] at h
    rcases h with h | h
    · exact ih h
    · exact ⟨n % 10, Nat.mod_lt _ (by norm_num), h⟩

theorem mem_pad_digit {c : Char} {k n : Nat} (h : c ∈ pad k n) : isDigitC c = true := by
  obtain ⟨r, hr, rfl⟩ := mem_pad h
  exact (digit_facts r hr).1

theorem pad_split (k j n : Nat) : pad (k + j) n = pad k (n / 10 ^ j) ++ pad j n := by
  induction j generalizing n with
  | zero => simp [pad]
  | succ j ih =>
    show pad (k + j) (n / 10) ++ [hexDigitChar (n % 10)] = _
    rw [ih (n / 10)]
    show _ = pad k (n / 10 ^ (j + 1)) ++ (pad j (n / 10) ++ [hexDigitChar (n % 10)])
    rw [List.append_assoc, Nat.div_div_eq_div_mul, ← pow_succ']

theorem pad_foldl (k : Nat) : ∀ n acc : Nat,
    (pad k n).foldl (fun a c => a * 10 + digitVal c) acc = acc * 10 ^ k + n % 10 ^ k := by
  induction k with
  | zero => intro n acc; simp [pad, Nat.mod_one]
  | succ k ih =>
    intro n acc
    show List.foldl _ acc (pad k (n / 10) ++ [hexDigitChar (n % 10)]) = _
    rw [List.foldl_append, ih (n / 10) acc]
    simp only [List.foldl_cons, List.foldl_nil]
    rw [(digit_facts (n % 10) (Nat.mod_lt _ (by norm_num))).2]
    have h : n % 10 ^ (k + 1) = n % 10 + 10 * (n / 10 % 10 ^ k) := by
      rw [pow_succ', Nat.mod_mul]
    rw [h, pow_succ]
    ring

theorem pad_inj {k n m : Nat} (hn : n < 10 ^ k) (hm : m < 10 ^ k)
    (h : pad k n = pad k m) : n = m := by
  have h2 := congrArg (List.foldl (fun a c => a * 10 + digitVal c) 0) h
  rw [pad_foldl k n 0, pad_foldl k m 0, Nat.mod_eq_of_lt hn, Nat.mod_eq_of_lt hm] at h2
  omega

theorem parseDigitsU_cons (acc : Nat) (c : Char) (t : List Char) :
    parseDigitsU acc (c :: t) =
      if c = '_' then
        (match t with
        | [] => none
        | c2 :: rest2 => if isDigitC c2 then parseDigitsU (acc * 10 + digitVal c2) rest2 else none)
      else if isDigitC c then parseDigitsU (acc * 10 + digitVal c) t else none := by
  rw [parseDigitsU.eq_def]

theorem parseDecFirst_cons (c : Char) (t : List Char) :
    parseDecFirst (c :: t) = if isDigitC c then parseDigitsU (digitVal c) t else none := by
  rw [parseDecFirst.eq_def]

theorem pyInt_of_stripWS_cons {s : Str} {c : Char} {t : List Char} (h : stripWS s = c :: t) :
    pyInt s = if c = '+' then (parseDecFirst t).map Int.ofNat
      else if c = '-' then (parseDecFirst t).map fun n => -(n : Int)
      else (parseDecFirst (c :: t)).map Int.ofNat := by
  unfold pyInt
  rw [h]

theorem parseDigitsU_digits {l : List Char} (h : ∀ c ∈ l, isDigitC c = true) :
    ∀ acc, parseDigitsU acc l = some (l.foldl (fun a c => a * 10 + digitVal c) acc) := by
  induction l with
  | nil => intro acc; rfl
  | cons c t ih =>
    intro acc
    have hc : isDigitC c = true := h c (List.mem_cons_self ..)
    rw [parseDigitsU_cons, if_neg (isDigitC_props hc).2.2.2.1, if_pos hc, List.foldl_cons]
    exact ih (fun x hx => h x (List.mem_cons_of_mem _ hx)) _

theorem dropWhile_isWS_eq_self {l : Str} (h : ∀ c ∈ l, isWS c = false) :
    l.dropWhile isWS = l := by
  cases l with
  | nil => rfl
  | cons c t => rw [List.dropWhile_cons, h c (List.mem_cons_self ..)]; simp

theorem stripWS_eq_self {l : Str} (h : ∀ c ∈ l, isWS c = false) : stripWS l = l := by
  unfold stripWS
  rw [dropWhile_isWS_eq_self h,
    dropWhile_isWS_eq_self (fun c hc => h c (List.mem_reverse.mp hc)), List.reverse_reverse]

theorem pyInt_digits {l : Str} (hne : l ≠ []) (h : ∀ c ∈ l, isDigitC c = true) :
    pyInt l = some ((l.foldl (fun a c => a * 10 + digitVal c) 0 : Nat) : Int) := by
  obtain ⟨c, t, rfl⟩ := List.exists_cons_of_ne_nil hne
  have hc : isDigitC c = true := h c (List.mem_cons_self ..)
  have hstrip : stripWS (c :: t) = c :: t :=
    stripWS_eq_self (fun x hx => (isDigitC_props (h x hx)).1)
  rw [pyInt_of_stripWS_cons hstrip, if_neg (isDigitC_props hc).2.1,
    if_neg (isDigitC_props hc).2.2.1, parseDecFirst_cons, if_pos hc,
    parseDigitsU_digits (fun x hx => h x (List.mem_cons_of_mem _ hx))]
  simp [List.foldl_cons]

theorem mem_pad_all_digits {k n : Nat} : ∀ c ∈ pad k n, isDigitC c = true :=
  fun _ hc => mem_pad_digit hc

theorem pad_ne_nil {k n : Nat} (hk : 0 < k) : pad k n ≠ [] := by
  intro e
  have hl := pad_length k n
  rw [e] at hl
  simp at hl
  omega

theorem pyInt_pad {k n : Nat} (hk : 0 < k) (hn : n < 10 ^ k) :
    pyInt (pad k n) = some (n : Int) := by
  rw [pyInt_digits (pad_ne_nil hk) mem_pad_all_digits, pad_foldl]
  simp [Nat.mod_eq_of_lt hn]

/-! ## Lemmas: lexicographic comparison -/

theorem lexLt_cons (a b : Char) (x y : Str) :
    lexLt (a :: x) (b :: y) = if a = b then lexLt x y else decide (a.toNat < b.toNat) := by
  rw [lexLt.eq_def]

theorem lexLt_cons_same (c : Char) (x y : Str) : lexLt (c :: x) (c :: y) = lexLt x y := by
  rw [lexLt_cons, if_pos rfl]

theorem lexLt_append_eqlen : ∀ {a b : Str}, a.length = b.length → ∀ x y,
    lexLt (a ++ x) (b ++ y) = if a = b then lexLt x y else lexLt a b := by
  intro a
  induction a with
  | nil =>
    intro b hb x y
    have : b = [] := by
      cases b with
      | nil => rfl
      | cons c t => simp at hb
    subst this
    simp
  | cons c t ih =>
    intro b hb x y
    cases b with
    | nil => simp at hb
    | cons d u =>
      simp only [List.length_cons, Nat.succ_inj] at hb
      by_cases hcd : c = d
      · subst hcd
        simp only [List.cons_append, lexLt_cons_same, ih hb x y]
        by_cases htu : t = u
        · subst htu; simp
        · rw [if_neg htu, if_neg (by simp [htu])]
      · simp only [List.cons_append, lexLt_cons, if_neg hcd,
          if_neg (show c :: t ≠ d :: u by simp [hcd])]

theorem lexLt_pad : ∀ k, ∀ {n m : Nat}, n < 10 ^ k → m < 10 ^ k →
    lexLt (pad k n) (pad k m) = decide (n < m) := by
  intro k
  induction k with
  | zero =>
    intro n m hn hm
    interval_cases n
    interval_cases m
    rfl
  | succ k ih =>
    intro n m hn hm
    have hn10 : n / 10 < 10 ^ k := by
      rw [Nat.div_lt_iff_lt_mul (by norm_num)]
      calc n < 10 ^ (k + 1) := hn
        _ = 10 ^ k * 10 := pow_succ 10 k
    have hm10 : m / 10 < 10 ^ k := by
      rw [Nat.div_lt_iff_lt_mul (by norm_num)]
      calc m < 10 ^ (k + 1) := hm
        _ = 10 ^ k * 10 := pow_succ 10 k
    show lexLt (pad k (n / 10) ++ [hexDigitChar (n % 10)])
        (pad k (m / 10) ++ [hexDigitChar (m % 10)]) = _
    rw [lexLt_append_eqlen (by rw [pad_length, pad_length])]
    by_cases hq : n / 10 = m / 10
    · rw [if_pos (by rw [hq]), lexLt_cons]
      have h9n : n % 10 < 10 := Nat.mod_lt _ (by norm_num)
      have h9m : m % 10 < 10 := Nat.mod_lt _ (by norm_num)
      by_cases he : n % 10 = m % 10
      · rw [if_pos (by rw [he])]
        have : ¬ n < m := by omega
        simp [lexLt, this]
      · rw [if_neg (by
          intro e
          exact he ((digit_eq_iff _ h9n _ h9m).mp e))]
        have := digit_lt_iff (n % 10) h9n (m % 10) h9m
        rcases Nat.lt_or_ge (n % 10) (m % 10) with hlt | hge
        · rw [decide_eq_true (this.mpr hlt), decide_eq_true (by omega)]
        · have h1 : ¬ (hexDigitChar (n % 10)).toNat < (hexDigitChar (m % 10)).toNat := by
            intro hx
            exact absurd (this.mp hx) (by omega)
          rw [decide_eq_false h1, decide_eq_false (show ¬ n < m by omega)]
    · rw [if_neg (fun e => hq (pad_inj hn10 hm10 e)), ih hn10 hm10]
      congr 1
      have : (n < m) ↔ (n / 10 < m / 10) := by omega
      simp [this]

theorem pad_mod : ∀ k n : Nat, pad k (n % 10 ^ k) = pad k n := by
  intro k
  induction k with
  | zero => intro n; rfl
  | succ k ih =>
    intro n
    show pad k (n % 10 ^ (k + 1) / 10) ++ [hexDigitChar (n % 10 ^ (k + 1) % 10)] =
      pad k (n / 10) ++ [hexDigitChar (n % 10)]
    have h1 : n % 10 ^ (k + 1) % 10 = n % 10 :=
      Nat.mod_mod_of_dvd n (dvd_pow_self 10 (Nat.succ_ne_zero k))
    have h2 : n % 10 ^ (k + 1) / 10 = n / 10 % 10 ^ k := by
      rw [pow_succ', Nat.mod_mul_right_div_self]
    rw [h1, h2, ih (n / 10)]

theorem lexLt_pad_append {k n m : Nat} (hn : n < 10 ^ k) (hm : m < 10 ^ k) (x y : Str) :
    lexLt (pad k n ++ x) (pad k m ++ y) =
      if n = m then lexLt x y else decide (n < m) := by
  rw [lexLt_append_eqlen (by rw [pad_length, pad_length])]
  by_cases h : n = m
  · rw [if_pos (by rw [h]), if_pos h]
  · rw [if_neg (fun e => h (pad_inj hn hm e)), if_neg h, lexLt_pad k hn hm]

/-! ## Lemmas: `split` and `join` -/

theorem splitH_cons (c : Char) (t : Str) :
    splitH (c :: t) = if c = '-' then [] :: splitH t else
      match splitH t with
      | g :: gs => (c :: g) :: gs
      | [] => [[c]] := by
  rw [splitH.eq_def]

theorem splitH_ne_nil : ∀ v : Str, splitH v ≠ [] := by
  intro v
  induction v with
  | nil => simp [splitH]
  | cons c t ih =>
    rw [splitH_cons]
    by_cases h : c = '-'
    · simp [h]
    · rw [if_neg h]
      cases he : splitH t with
      | nil => simp
      | cons g gs => simp

theorem splitH_no_hyphen : ∀ {a : Str}, (∀ c ∈ a, c ≠ '-') → splitH a = [a] := by
  intro a
  induction a with
  | nil => intro _; rfl
  | cons c t ih =>
    intro h
    rw [splitH_cons, if_neg (h c (List.mem_cons_self ..)),
      ih (fun x hx => h x (List.mem_cons_of_mem _ hx))]

theorem splitH_append {a : Str} (b : Str) (h : ∀ c ∈ a, c ≠ '-') :
    splitH (a ++ '-' :: b) = a :: splitH b := by
  induction a with
  | nil => simp [splitH_cons]
  | cons c t ih =>
    rw [List.cons_append, splitH_cons, if_neg (h c (List.mem_cons_self ..)),
      ih (fun x hx => h x (List.mem_cons_of_mem _ hx))]

theorem splitH_canonical {g1 g2 g3 g4 g5 : Str}
    (h1 : ∀ c ∈ g1, c ≠ '-') (h2 : ∀ c ∈ g2, c ≠ '-') (h3 : ∀ c ∈ g3, c ≠ '-')
    (h4 : ∀ c ∈ g4, c ≠ '-') (h5 : ∀ c ∈ g5, c ≠ '-') :
    splitH (g1 ++ '-' :: g2 ++ '-' :: g3 ++ '-' :: g4 ++ '-' :: g5) =
      [g1, g2, g3, g4, g5] := by
  simp only [List.cons_append, List.append_assoc]
  rw [show (g1 ++ '-' :: (g2 ++ '-' :: (g3 ++ '-' :: (g4 ++ '-' :: g5)))) =
      g1 ++ '-' :: (g2 ++ '-' :: (g3 ++ '-' :: (g4 ++ '-' :: g5))) from rfl,
    splitH_append _ h1, splitH_append _ h2, splitH_append _ h3, splitH_append _ h4,
    splitH_no_hyphen h5]

theorem pyLastGroup_canonical {g1 g2 g3 g4 g5 : Str}
    (h1 : ∀ c ∈ g1, c ≠ '-') (h2 : ∀ c ∈ g2, c ≠ '-') (h3 : ∀ c ∈ g3, c ≠ '-')
    (h4 : ∀ c ∈ g4, c ≠ '-') (h5 : ∀ c ∈ g5, c ≠ '-') :
    pyLastGroup (g1 ++ '-' :: g2 ++ '-' :: g3 ++ '-' :: g4 ++ '-' :: g5) = g5 := by
  unfold pyLastGroup
  rw [splitH_canonical h1 h2 h3 h4 h5]
  rfl

theorem joinH_dropLast_canonical {g1 g2 g3 g4 g5 : Str}
    (h1 : ∀ c ∈ g1, c ≠ '-') (h2 : ∀ c ∈ g2, c ≠ '-') (h3 : ∀ c ∈ g3, c ≠ '-')
    (h4 : ∀ c ∈ g4, c ≠ '-') (h5 : ∀ c ∈ g5, c ≠ '-') :
    joinH (splitH (g1 ++ '-' :: g2 ++ '-' :: g3 ++ '-' :: g4 ++ '-' :: g5)).dropLast =
      g1 ++ '-' :: g2 ++ '-' :: g3 ++ '-' :: g4 := by
  rw [splitH_canonical h1 h2 h3 h4 h5]
  show joinH [g1, g2, g3, g4] = _
  show g1 ++ '-' :: joinH [g2, g3, g4] = _
  simp only [List.cons_append, List.append_assoc]
  rfl

/-! ## Lemmas: hex rendering and digest lengths -/

theorem hexEncodeBytes_length (bs : List Nat) : (hexEncodeBytes bs).length = 2 * bs.length := by
  induction bs with
  | nil => rfl
  | cons b t ih =>
    simp only [hexEncodeBytes, List.map_cons, List.flatten_cons, List.length_append,
      List.length_cons, List.length_nil] at ih ⊢
    omega

theorem mem_hexEncodeBytes {c : Char} {bs : List Nat} (h : c ∈ hexEncodeBytes bs) :
    ∃ r, c = hexDigitChar r := by
  simp only [hexEncodeBytes, List.mem_flatten, List.mem_map] at h
  obtain ⟨l, ⟨b, _, rfl⟩, hc⟩ := h
  simp only [List.mem_cons, List.not_mem_nil, or_false] at hc
  rcases hc with rfl | rfl
  · exact ⟨_, rfl⟩
  · exact ⟨_, rfl⟩

theorem shaRound_length (st : List Nat) (kw : Nat × Nat) :
    (shaRound st kw).length = st.length := by
  rcases st with _ | ⟨a, _ | ⟨b, _ | ⟨c, _ | ⟨d, _ | ⟨e, _ | ⟨f, _ | ⟨g, _ | ⟨h, _ | ⟨i, t⟩⟩⟩⟩⟩⟩⟩⟩⟩ <;>
    rfl

theorem foldl_shaRound_length (l : List (Nat × Nat)) :
    ∀ st : List Nat, (l.foldl shaRound st).length = st.length := by
  induction l with
  | nil => intro st; rfl
  | cons p t ih =>
    intro st
    rw [List.foldl_cons, ih (shaRound st p), shaRound_length]

theorem compress_length (H block : List Nat) (h : H.length = 8) :
    (compress H block).length = 8 := by
  unfold compress
  rw [List.length_map, List.length_zip, foldl_shaRound_length, h]
  rfl

theorem shaBlocksAux_length (n : Nat) :
    ∀ H bytes : List Nat, H.length = 8 → (shaBlocksAux n H bytes).length = 8 := by
  induction n with
  | zero => intro H bytes h; exact h
  | succ n ih =>
    intro H bytes h
    exact ih _ _ (compress_length _ _ h)

theorem flatten_quad_length (H : List Nat) :
    ((H.map fun w => [(w >>> 24) % 256, (w >>> 16) % 256, (w >>> 8) % 256, w % 256]).flatten).length =
      4 * H.length := by
  induction H with
  | nil => rfl
  | cons w t ih =>
    simp only [List.map_cons, List.flatten_cons, List.length_append, List.length_cons,
      List.length_nil, List.length_map, ih]
    omega

theorem sha256Bytes_length (msg : List Nat) : (sha256Bytes msg).length = 32 := by
  unfold sha256Bytes
  rw [flatten_quad_length, shaBlocksAux_length _ shaH0 _ (by decide)]

theorem hmacSha256Hex_length (secret msg : Str) : (hmacSha256Hex secret msg).length = 64 := by
  unfold hmacSha256Hex hmacSha256
  rw [hexEncodeBytes_length, sha256Bytes_length]

theorem mem_hmacSha256Hex {c : Char} {secret msg : Str} (h : c ∈ hmacSha256Hex secret msg) :
    ∃ r, c = hexDigitChar r := mem_hexEncodeBytes h

/-! ## Lemmas: decoding an encoded value -/

theorem length_eq_four {α : Type} {l : List α} (h : l.length = 4) :
    ∃ a b c d, l = [a, b, c, d] := by
  rcases l with _ | ⟨a, _ | ⟨b, _ | ⟨c, _ | ⟨d, _ | ⟨e, t⟩⟩⟩⟩⟩
  · simp at h
  · simp at h
  · simp at h
  · simp at h
  · exact ⟨a, b, c, d, rfl⟩
  · simp only [List.length_cons, List.length_nil] at h
    omega

theorem pad4_take2 (n : Nat) : (pad 4 n).take 2 = pad 2 (n / 100) := by
  have h := pad_split 2 2 n
  norm_num at h
  rw [h]
  exact List.take_left' (pad_length 2 _)

theorem pad4_drop2 (n : Nat) : (pad 4 n).drop 2 = pad 2 n := by
  have h := pad_split 2 2 n
  norm_num at h
  rw [h]
  exact List.drop_left' (pad_length 2 _)

set_option maxHeartbeats 2000000 in
/--
Decoding what the generator encodes: the `datetime` property of an
`encValue`-shaped raw value recovers the encoded fields, the sub-second
field coming back as `microsecond / 100 * 100`.
-/
theorem datetime_encValue (u : PyDT) (ud suf : Str) (b : Bool)
    (hud : ud.length = 2) (hval : validDT u) :
    HLID.datetime ⟨encValue u ud suf, b⟩ =
      .ok ⟨u.year, u.month, u.day, u.hour, u.minute, u.second,
        u.microsecond / 100 * 100, some 0⟩ := by
  obtain ⟨y, mo, d, hh, mi, s, mc, tz⟩ := u
  obtain ⟨hy1, hy2, hmo1, hmo2, hd1, hd2, hhh, hmi, hs, hmc⟩ := hval
  simp only at hy1 hy2 hmo1 hmo2 hd1 hd2 hhh hmi hs hmc ⊢
  set sub := mc / 100 with hsubdef
  have hsub : sub < 10000 := by omega
  obtain ⟨u1, u2, hudE⟩ := List.length_eq_two.mp hud
  obtain ⟨y1, y2, y3, y4, hyE⟩ := length_eq_four (pad_length 4 y)
  obtain ⟨m1, m2, hmoE⟩ := List.length_eq_two.mp (pad_length 2 mo)
  obtain ⟨d1, d2, hdE⟩ := List.length_eq_two.mp (pad_length 2 d)
  obtain ⟨h1, h2, hhE⟩ := List.length_eq_two.mp (pad_length 2 hh)
  obtain ⟨i1, i2, hiE⟩ := List.length_eq_two.mp (pad_length 2 mi)
  obtain ⟨s1, s2, hsE⟩ := List.length_eq_two.mp (pad_length 2 s)
  obtain ⟨t1, t2, htE⟩ := List.length_eq_two.mp (pad_length 2 (sub / 100))
  obtain ⟨t3, t4, ttE⟩ := List.length_eq_two.mp (pad_length 2 sub)
  have hv : encValue ⟨y, mo, d, hh, mi, s, mc, tz⟩ ud suf =
      y1 :: y2 :: y3 :: y4 :: m1 :: m2 :: d1 :: d2 :: '-' :: h1 :: h2 :: i1 :: i2 ::
        '-' :: s1 :: s2 :: t1 :: t2 :: '-' :: t3 :: t4 :: u1 :: u2 :: '-' :: suf := by
    simp only [encValue, encTsStr, fmtYmdHmsStr, pad4_take2, pad4_drop2, hsubdef.symm,
      hyE, hmoE, hdE, hhE, hiE, hsE, htE, ttE, hudE, List.cons_append, List.append_assoc,
      List.nil_append]
  have hm1 : t1 ∈ pad 2 (sub / 100) := by rw [htE]; simp
  have hm2 : t2 ∈ pad 2 (sub / 100) := by rw [htE]; simp
  have hm3 : t3 ∈ pad 2 sub := by rw [ttE]; simp
  have hm4 : t4 ∈ pad 2 sub := by rw [ttE]; simp
  have ht1 : t1 ≠ '-' := (isDigitC_props (mem_pad_digit hm1)).2.2.1
  have ht2 : t2 ≠ '-' := (isDigitC_props (mem_pad_digit hm2)).2.2.1
  have ht3 : t3 ≠ '-' := (isDigitC_props (mem_pad_digit hm3)).2.2.1
  have ht4 : t4 ≠ '-' := (isDigitC_props (mem_pad_digit hm4)).2.2.1
  have hpadsub : pad 4 sub = pad 2 (sub / 100) ++ pad 2 sub := by
    have h := pad_split 2 2 sub
    norm_num at h
    exact h
  have e04 : pySlice 0 4 (encValue ⟨y, mo, d, hh, mi, s, mc, tz⟩ ud suf) = pad 4 y := by
    rw [hv, hyE]; rfl
  have e46 : pySlice 4 6 (encValue ⟨y, mo, d, hh, mi, s, mc, tz⟩ ud suf) = pad 2 mo := by
    rw [hv, hmoE]; rfl
  have e68 : pySlice 6 8 (encValue ⟨y, mo, d, hh, mi, s, mc, tz⟩ ud suf) = pad 2 d := by
    rw [hv, hdE]; rfl
  have e911 : pySlice 9 11 (encValue ⟨y, mo, d, hh, mi, s, mc, tz⟩ ud suf) = pad 2 hh := by
    rw [hv, hhE]; rfl
  have e1113 : pySlice 11 13 (encValue ⟨y, mo, d, hh, mi, s, mc, tz⟩ ud suf) = pad 2 mi := by
    rw [hv, hiE]; rfl
  have e1416 : pySlice 14 16 (encValue ⟨y, mo, d, hh, mi, s, mc, tz⟩ ud suf) = pad 2 s := by
    rw [hv, hsE]; rfl
  have esub : (pySlice 16 21 (encValue ⟨y, mo, d, hh, mi, s, mc, tz⟩ ud suf)).filter
      (fun c => c ≠ '-') = pad 4 sub := by
    rw [hv, show pySlice 16 21 (y1 :: y2 :: y3 :: y4 :: m1 :: m2 :: d1 :: d2 :: '-' :: h1 ::
        h2 :: i1 :: i2 :: '-' :: s1 :: s2 :: t1 :: t2 :: '-' :: t3 :: t4 :: u1 :: u2 ::
        '-' :: suf) = [t1, t2, '-', t3, t4] from rfl, hpadsub, htE, ttE]
    simp [List.filter_cons, ht1, ht2, ht3, ht4]
  have psub : pyInt ((pySlice 16 21 (encValue ⟨y, mo, d, hh, mi, s, mc, tz⟩ ud suf)).filter
      (fun c => c ≠ '-')) = some (sub : Int) := by
    rw [esub]
    exact pyInt_pad (by norm_num) (by norm_num; omega)
  have p0 : pyInt (pySlice 0 4 (encValue ⟨y, mo, d, hh, mi, s, mc, tz⟩ ud suf)) =
      some (y : Int) := by
    rw [e04]; exact pyInt_pad (by norm_num) (by norm_num; omega)
  have p46 : pyInt (pySlice 4 6 (encValue ⟨y, mo, d, hh, mi, s, mc, tz⟩ ud suf)) =
      some (mo : Int) := by
    rw [e46]; exact pyInt_pad (by norm_num) (by norm_num; omega)
  have p68 : pyInt (pySlice 6 8 (encValue ⟨y, mo, d, hh, mi, s, mc, tz⟩ ud suf)) =
      some (d : Int) := by
    rw [e68]
    have hdm : daysInMonth y mo ≤ 31 := by
      unfold daysInMonth
      split
      · split <;> omega
      · split <;> omega
    exact pyInt_pad (by norm_num) (by norm_num; omega)
  have p911 : pyInt (pySlice 9 11 (encValue ⟨y, mo, d, hh, mi, s, mc, tz⟩ ud suf)) =
      some (hh : Int) := by
    rw [e911]; exact pyInt_pad (by norm_num) (by norm_num; omega)
  have p1113 : pyInt (pySlice 11 13 (encValue ⟨y, mo, d, hh, mi, s, mc, tz⟩ ud suf)) =
      some (mi : Int) := by
    rw [e1113]; exact pyInt_pad (by norm_num) (by norm_num; omega)
  have p1416 : pyInt (pySlice 14 16 (encValue ⟨y, mo, d, hh, mi, s, mc, tz⟩ ud suf)) =
      some (s : Int) := by
    rw [e1416]; exact pyInt_pad (by norm_num) (by norm_num; omega)
  unfold HLID.datetime
  simp only [psub, p0, p46, p68, p911, p1113, p1416]
  rw [if_neg (show ¬ ((sub : Int) > 9999) by push_cast; omega)]
  unfold mkDatetimeUtc
  rw [if_pos]
  · have hc1 : ((y : Int)).toNat = y := Int.toNat_natCast y
    have hc7 : ((sub : Int) * 100).toNat = sub * 100 := by omega
    simp [hc1, hc7, Int.toNat_natCast]
  · simp only [Int.toNat_natCast]
    push_cast
    omega

/-! ## Lemmas: `__init__` control flow -/

theorem init_ud_error {ud : Str} {e : PyErr} (ts : PyDT) (bs : List Nat)
    (value : Option Str) (secret : Str) (h : checkUserData ud = some e) :
    HLID.init ts bs value secret ud = .error e := by
  unfold HLID.init
  rw [h]

theorem init_mustBeLowercase {ud v : Str} (ts : PyDT) (bs : List Nat) (secret : Str)
    (hud : checkUserData ud = none) (hv : v ≠ []) (hlc : pyLowerStr v ≠ v) :
    HLID.init ts bs (some v) secret ud = .error .mustBeLowercase := by
  unfold HLID.init
  rw [hud]
  simp only [Option.getD_some]
  rw [if_pos hv, if_pos hlc]

theorem init_value_nosecret {ud v : Str} (ts : PyDT) (bs : List Nat)
    (hud : checkUserData ud = none) (hv : v ≠ []) (hlc : pyLowerStr v = v) :
    HLID.init ts bs (some v) [] ud =
      match HLID.datetime ⟨transmorph v, false⟩ with
      | .error _ => .error .invalidValue
      | .ok _ => .ok ⟨transmorph v, false⟩ := by
  unfold HLID.init
  rw [hud]
  simp only [Option.getD_some]
  rw [if_pos hv, if_neg (show ¬ pyLowerStr v ≠ v from fun h => h hlc)]
  simp only [ne_eq, not_true_eq_false, if_false]

theorem trunc_nosecret (bs : List Nat) (value : Str) :
    trunc_sha256_hmac_else_nonce bs value [] = pyLastGroup (uuid4Str bs) := by
  unfold trunc_sha256_hmac_else_nonce
  rw [if_pos rfl]

theorem trunc_secret (bs : List Nat) (value : Str) {secret : Str} (h : secret ≠ []) :
    trunc_sha256_hmac_else_nonce bs value secret = (hmacSha256Hex secret value).take 12 := by
  unfold trunc_sha256_hmac_else_nonce
  rw [if_neg h]

theorem init_value_secret {ud v secret : Str} (ts : PyDT) (bs : List Nat)
    (hud : checkUserData ud = none) (hv : v ≠ []) (hlc : pyLowerStr v = v)
    (hsec : 16 ≤ secret.length) :
    HLID.init ts bs (some v) secret ud =
      if pyLastGroup (transmorph v) ≠
          trunc_sha256_hmac_else_nonce bs (joinH (splitH (transmorph v)).dropLast) secret then
        .error .hmacCheckFailed
      else
        match HLID.datetime ⟨transmorph v, true⟩ with
        | .error _ => .error .invalidValue
        | .ok _ => .ok ⟨transmorph v, true⟩ := by
  have hne : secret ≠ [] := by
    intro e
    rw [e] at hsec
    simp at hsec
  have h16 : ¬ secret.length < 16 := by omega
  unfold HLID.init
  rw [hud]
  simp only [Option.getD_some]
  rw [if_pos hv, if_neg (show ¬ pyLowerStr v ≠ v from fun h => h hlc)]
  simp only [ne_eq, hne, not_false_eq_true, if_true, h16, if_false]
  by_cases hcmp : pyLastGroup (transmorph v) =
      trunc_sha256_hmac_else_nonce bs (joinH (splitH (transmorph v)).dropLast) secret
  · rw [if_neg (not_not_intro hcmp), if_neg (not_not_intro hcmp)]
  · rw [if_pos hcmp, if_pos hcmp]

theorem init_gen_nosecret {ud : Str} (ts : PyDT) (bs : List Nat)
    (hud : checkUserData ud = none) :
    HLID.init ts bs none [] ud =
      match HLID.datetime ⟨encTsStr ts ud ++ '-' :: pyLastGroup (uuid4Str bs), false⟩ with
      | .error _ => .error .invalidValue
      | .ok _ => .ok ⟨encTsStr ts ud ++ '-' :: pyLastGroup (uuid4Str bs), false⟩ := by
  have hts : (pad 6 ts.microsecond).take 4 = pad 4 (ts.microsecond / 100) := by
    have h := pad_split 4 2 ts.microsecond
    norm_num at h
    rw [h]
    exact List.take_left' (pad_length 4 _)
  unfold HLID.init
  rw [hud]
  simp only [Option.getD_none, ne_eq, not_true_eq_false, if_false, trunc_nosecret, hts]
  rw [show (fmtYmdHmsStr ts ++ List.take 2 (pad 4 (ts.microsecond / 100)) ++
      '-' :: (List.drop 2 (pad 4 (ts.microsecond / 100)) ++ ud)) = encTsStr ts ud from rfl]

theorem init_gen_secret {ud secret : Str} (ts : PyDT) (bs : List Nat)
    (hud : checkUserData ud = none) (hsec : 16 ≤ secret.length) :
    HLID.init ts bs none secret ud =
      if pyLastGroup (encTsStr ts ud ++ '-' :: (hmacSha256Hex secret (encTsStr ts ud)).take 12) ≠
          (hmacSha256Hex secret
            (joinH (splitH (encTsStr ts ud ++
              '-' :: (hmacSha256Hex secret (encTsStr ts ud)).take 12)).dropLast)).take 12 then
        .error .hmacCheckFailed
      else
        match HLID.datetime ⟨encTsStr ts ud ++
            '-' :: (hmacSha256Hex secret (encTsStr ts ud)).take 12, true⟩ with
        | .error _ => .error .invalidValue
        | .ok _ =>
          .ok ⟨encTsStr ts ud ++ '-' :: (hmacSha256Hex secret (encTsStr ts ud)).take 12, true⟩ := by
  have hne : secret ≠ [] := by
    intro e
    rw [e] at hsec
    simp at hsec
  have h16 : ¬ secret.length < 16 := by omega
  have hts : (pad 6 ts.microsecond).take 4 = pad 4 (ts.microsecond / 100) := by
    have h := pad_split 4 2 ts.microsecond
    norm_num at h
    rw [h]
    exact List.take_left' (pad_length 4 _)
  unfold HLID.init
  rw [hud]
  simp only [Option.getD_none, ne_eq, not_true_eq_false, if_false, hts,
    trunc_secret _ _ hne, hne, not_false_eq_true, if_true, h16]
  rw [show (fmtYmdHmsStr ts ++ List.take 2 (pad 4 (ts.microsecond / 100)) ++
      '-' :: (List.drop 2 (pad 4 (ts.microsecond / 100)) ++ ud)) = encTsStr ts ud from rfl]
  by_cases hcmp : pyLastGroup (encTsStr ts ud ++
      '-' :: (hmacSha256Hex secret (encTsStr ts ud)).take 12) =
      (hmacSha256Hex secret (joinH (splitH (encTsStr ts ud ++
        '-' :: (hmacSha256Hex secret (encTsStr ts ud)).take 12)).dropLast)).take 12
  · rw [if_neg (not_not_intro hcmp), if_neg (not_not_intro hcmp)]
  · rw [if_pos hcmp, if_pos hcmp]

/-! ## Lemmas: ordering of encoded values -/

theorem daysInMonth_le (y m : Nat) : daysInMonth y m ≤ 31 := by
  unfold daysInMonth
  split
  · split <;> omega
  · split <;> omega

theorem pad2_mod (n : Nat) : pad 2 (n % 100) = pad 2 n := by
  have h := pad_mod 2 n
  norm_num at h
  exact h

set_option maxHeartbeats 2000000 in
/--
Lexicographic comparison of two generated raw values is comparison of the
encoded timestamps first (`tsKey`), then of the user-data byte, then of the
suffix.
-/
theorem lexLt_encValue {u1 u2 : PyDT} (ud1 ud2 n1 n2 : Str)
    (hv1 : validDT u1) (hv2 : validDT u2)
    (hud1 : ud1.length = 2) (hud2 : ud2.length = 2) :
    lexLt (encValue u1 ud1 n1) (encValue u2 ud2 n2) =
      if tsKey u1 = tsKey u2 then
        (if ud1 = ud2 then lexLt n1 n2 else lexLt ud1 ud2)
      else decide (tsKey u1 < tsKey u2) := by
  obtain ⟨y1, mo1, d1, hh1, mi1, s1, mc1, tz1⟩ := u1
  obtain ⟨y2, mo2, d2, hh2, mi2, s2, mc2, tz2⟩ := u2
  obtain ⟨ha1, ha2, ha3, ha4, ha5, ha6, ha7, ha8, ha9, ha10⟩ := hv1
  obtain ⟨hb1, hb2, hb3, hb4, hb5, hb6, hb7, hb8, hb9, hb10⟩ := hv2
  simp only at ha1 ha2 ha3 ha4 ha5 ha6 ha7 ha8 ha9 ha10
  simp only at hb1 hb2 hb3 hb4 hb5 hb6 hb7 hb8 hb9 hb10
  have hd31a : daysInMonth y1 mo1 ≤ 31 := daysInMonth_le y1 mo1
  have hd31b : daysInMonth y2 mo2 ≤ 31 := daysInMonth_le y2 mo2
  simp only [encValue, encTsStr, fmtYmdHmsStr, pad4_take2, pad4_drop2, tsKey,
    List.append_assoc, List.cons_append]
  rw [lexLt_pad_append (show y1 < 10 ^ 4 by norm_num; omega)
    (show y2 < 10 ^ 4 by norm_num; omega)]
  by_cases hy : y1 = y2
  swap
  · rw [if_neg hy, if_neg (show ¬ _ = _ by omega)]
    exact decide_eq_decide.mpr (by omega)
  rw [if_pos hy]
  rw [lexLt_pad_append (show mo1 < 10 ^ 2 by norm_num; omega)
    (show mo2 < 10 ^ 2 by norm_num; omega)]
  by_cases hmo : mo1 = mo2
  swap
  · rw [if_neg hmo, if_neg (show ¬ _ = _ by omega)]
    exact decide_eq_decide.mpr (by omega)
  rw [if_pos hmo]
  rw [lexLt_pad_append (show d1 < 10 ^ 2 by norm_num; omega)
    (show d2 < 10 ^ 2 by norm_num; omega)]
  by_cases hd : d1 = d2
  swap
  · rw [if_neg hd, if_neg (show ¬ _ = _ by omega)]
    exact decide_eq_decide.mpr (by omega)
  rw [if_pos hd, lexLt_cons_same]
  rw [lexLt_pad_append (show hh1 < 10 ^ 2 by norm_num; omega)
    (show hh2 < 10 ^ 2 by norm_num; omega)]
  by_cases hhh : hh1 = hh2
  swap
  · rw [if_neg hhh, if_neg (show ¬ _ = _ by omega)]
    exact decide_eq_decide.mpr (by omega)
  rw [if_pos hhh]
  rw [lexLt_pad_append (show mi1 < 10 ^ 2 by norm_num; omega)
    (show mi2 < 10 ^ 2 by norm_num; omega)]
  by_cases hmi : mi1 = mi2
  swap
  · rw [if_neg hmi, if_neg (show ¬ _ = _ by omega)]
    exact decide_eq_decide.mpr (by omega)
  rw [if_pos hmi, lexLt_cons_same]
  rw [lexLt_pad_append (show s1 < 10 ^ 2 by norm_num; omega)
    (show s2 < 10 ^ 2 by norm_num; omega)]
  by_cases hs : s1 = s2
  swap
  · rw [if_neg hs, if_neg (show ¬ _ = _ by omega)]
    exact decide_eq_decide.mpr (by omega)
  rw [if_pos hs]
  rw [lexLt_pad_append (show mc1 / 100 / 100 < 10 ^ 2 by norm_num; omega)
    (show mc2 / 100 / 100 < 10 ^ 2 by norm_num; omega)]
  by_cases hq : mc1 / 100 / 100 = mc2 / 100 / 100
  swap
  · rw [if_neg hq, if_neg (show ¬ _ = _ by omega)]
    exact decide_eq_decide.mpr (by omega)
  rw [if_pos hq, lexLt_cons_same, ← pad2_mod (mc1 / 100), ← pad2_mod (mc2 / 100)]
  rw [lexLt_pad_append (show mc1 / 100 % 100 < 10 ^ 2 by norm_num; omega)
    (show mc2 / 100 % 100 < 10 ^ 2 by norm_num; omega)]
  by_cases hr : mc1 / 100 % 100 = mc2 / 100 % 100
  swap
  · rw [if_neg hr, if_neg (show ¬ _ = _ by omega)]
    exact decide_eq_decide.mpr (by omega)
  rw [if_pos hr, if_pos (show _ = _ by omega)]
  rw [lexLt_append_eqlen (hud1.trans hud2.symm)]
  by_cases hu : ud1 = ud2
  · rw [if_pos hu, if_pos hu, lexLt_cons_same]
  · rw [if_neg hu, if_neg hu]

/-! ## Lemmas: shape and character set of generated values -/

theorem mem_encTsStr {c : Char} {u : PyDT} {ud : Str} (h : c ∈ encTsStr u ud) :
    isDigitC c = true ∨ c = '-' ∨ c ∈ ud := by
  simp only [encTsStr, fmtYmdHmsStr, List.append_assoc, List.cons_append, List.mem_append,
    List.mem_cons] at h
  rcases h with h | h | h | h | h | h | h | h | h | h | h
  · exact Or.inl (mem_pad_digit h)
  · exact Or.inl (mem_pad_digit h)
  · exact Or.inl (mem_pad_digit h)
  · exact Or.inr (Or.inl h)
  · exact Or.inl (mem_pad_digit h)
  · exact Or.inl (mem_pad_digit h)
  · exact Or.inr (Or.inl h)
  · exact Or.inl (mem_pad_digit h)
  · exact Or.inl (mem_pad_digit (List.mem_of_mem_take h))
  · exact Or.inr (Or.inl h)
  · rcases h with h | h
    · exact Or.inl (mem_pad_digit (List.mem_of_mem_drop h))
    · exact Or.inr (Or.inr h)

theorem encTsStr_length (u : PyDT) (ud : Str) :
    (encTsStr u ud).length = 21 + ud.length := by
  simp only [encTsStr, fmtYmdHmsStr, List.length_append, List.length_cons, List.length_take,
    List.length_drop, pad_length]
  omega

theorem encValue_length (u : PyDT) (ud suf : Str) :
    (encValue u ud suf).length = 22 + ud.length + suf.length := by
  simp only [encValue, List.length_append, List.length_cons, encTsStr_length]
  omega

theorem transmorph_eq_self {v : Str} (h : v.length ≠ 32) : transmorph v = v := by
  unfold transmorph
  rw [if_neg h]

theorem pyLastGroup_uuid4 {bs : List Nat} (hb : bs.length = 16) :
    pyLastGroup (uuid4Str bs) = (hexEncodeBytes bs).drop 20 := by
  have hx : ∀ c ∈ hexEncodeBytes bs, c ≠ '-' := by
    intro c hc
    obtain ⟨r, rfl⟩ := mem_hexEncodeBytes hc
    exact (hexDigitChar_props r).2.1
  rw [show uuid4Str bs = (hexEncodeBytes bs).take 8 ++
      '-' :: ((hexEncodeBytes bs).drop 8).take 4 ++
      '-' :: ((hexEncodeBytes bs).drop 12).take 4 ++
      '-' :: ((hexEncodeBytes bs).drop 16).take 4 ++
      '-' :: (hexEncodeBytes bs).drop 20 from rfl]
  exact pyLastGroup_canonical
    (fun c hc => hx c (List.mem_of_mem_take hc))
    (fun c hc => hx c (List.mem_of_mem_drop (List.mem_of_mem_take hc)))
    (fun c hc => hx c (List.mem_of_mem_drop (List.mem_of_mem_take hc)))
    (fun c hc => hx c (List.mem_of_mem_drop (List.mem_of_mem_take hc)))
    (fun c hc => hx c (List.mem_of_mem_drop hc))

theorem pyLastGroup_uuid4_length {bs : List Nat} (hb : bs.length = 16) :
    (pyLastGroup (uuid4Str bs)).length = 12 := by
  rw [pyLastGroup_uuid4 hb, List.length_drop, hexEncodeBytes_length, hb]

theorem mem_pyLastGroup_uuid4 {c : Char} {bs : List Nat} (hb : bs.length = 16)
    (h : c ∈ pyLastGroup (uuid4Str bs)) : ∃ r, c = hexDigitChar r := by
  rw [pyLastGroup_uuid4 hb] at h
  exact mem_hexEncodeBytes (List.mem_of_mem_drop h)

theorem encValue_groups (u : PyDT) (ud suf : Str) :
    encValue u ud suf =
      (pad 4 u.year ++ pad 2 u.month ++ pad 2 u.day) ++
        '-' :: (pad 2 u.hour ++ pad 2 u.minute) ++
        '-' :: (pad 2 u.second ++ (pad 4 (u.microsecond / 100)).take 2) ++
        '-' :: ((pad 4 (u.microsecond / 100)).drop 2 ++ ud) ++
        '-' :: suf := by
  simp [encValue, encTsStr, fmtYmdHmsStr, List.append_assoc, List.cons_append]

/-! ## Claims -/

/--
Claim C8: comparing an Identifier against a non-Identifier value is
asymmetric by contract: `==` returns `False` (never an error) while `<`,
`<=`, `>`, `>=` produce a type error (`NotImplemented`, modelled `none`)
rather than a boolean; between two Identifiers, equality holds iff their
`raw_value` strings are equal.
-/
theorem claim_C8 (h : HLID) (v : PyVal) (o : HLID) (hv : v.isHLID = false) :
    h.eqPy v = false ∧ h.ltPy v = none ∧ h.lePy v = none ∧
      h.gtPy v = none ∧ h.gePy v = none ∧
      (h.eqPy (.hlidVal o) = true ↔ h._value = o._value) := by
  have heq : h.eqPy (.hlidVal o) = true ↔ h._value = o._value := by
    simp [HLID.eqPy]
  cases v with
  | hlidVal w => simp [PyVal.isHLID] at hv
  | strVal s => exact ⟨rfl, rfl, rfl, rfl, rfl, heq⟩
  | intVal n => exact ⟨rfl, rfl, rfl, rfl, rfl, heq⟩
  | noneVal => exact ⟨rfl, rfl, rfl, rfl, rfl, heq⟩

theorem claim_C8_witness :
    (HLID.mk ("20240229-1234-5678-00ff-1234567890ab".toList) false).eqPy
        (.strVal ("20240229-1234-5678-00ff-1234567890ab".toList)) = false ∧
      (HLID.mk ("20240229-1234-5678-00ff-1234567890ab".toList) false).ltPy
        (.strVal ("20240229-1234-5678-00ff-1234567890ab".toList)) = none ∧
      (HLID.mk ("20240229-1234-5678-00ff-1234567890ab".toList) false).lePy
        (.strVal ("20240229-1234-5678-00ff-1234567890ab".toList)) = none ∧
      (HLID.mk ("20240229-1234-5678-00ff-1234567890ab".toList) false).gtPy
        (.strVal ("20240229-1234-5678-00ff-1234567890ab".toList)) = none ∧
      (HLID.mk ("20240229-1234-5678-00ff-1234567890ab".toList) false).gePy
        (.strVal ("20240229-1234-5678-00ff-1234567890ab".toList)) = none ∧
      ((HLID.mk ("20240229-1234-5678-00ff-1234567890ab".toList) false).eqPy
          (.hlidVal (HLID.mk ("20240229-1234-5678-00ff-1234567890ab".toList) true)) = true ↔
        ("20240229-1234-5678-00ff-1234567890ab".toList : Str) =
          "20240229-1234-5678-00ff-1234567890ab".toList) :=
  claim_C8 (HLID.mk ("20240229-1234-5678-00ff-1234567890ab".toList) false)
    (.strVal ("20240229-1234-5678-00ff-1234567890ab".toList))
    (HLID.mk ("20240229-1234-5678-00ff-1234567890ab".toList) true) (by decide)

/--
Claim C7: with a non-empty secret the suffix generator returns exactly the
first 12 characters of the lowercase HMAC-SHA256 hex digest of the payload
keyed by the secret — hence 12 lowercase hex characters — and it is
deterministic (it does not depend on the random bytes `bs`); with no secret
it returns 12 lowercase hex characters (the last `uuid4` group).
-/
theorem claim_C7 (payload secret : Str) (bs bs2 : List Nat)
    (hsec : secret ≠ []) (hbs : bs.length = 16) :
    trunc_sha256_hmac_else_nonce bs payload secret =
        (hmacSha256Hex secret payload).take 12 ∧
      (trunc_sha256_hmac_else_nonce bs payload secret).length = 12 ∧
      (trunc_sha256_hmac_else_nonce bs payload secret).all isHexLowerC = true ∧
      trunc_sha256_hmac_else_nonce bs payload secret =
        trunc_sha256_hmac_else_nonce bs2 payload secret ∧
      (trunc_sha256_hmac_else_nonce bs payload []).length = 12 ∧
      (trunc_sha256_hmac_else_nonce bs payload []).all isHexLowerC = true := by
  refine ⟨trunc_secret bs payload hsec, ?_, ?_, ?_, ?_, ?_⟩
  · rw [trunc_secret bs payload hsec, List.length_take, hmacSha256Hex_length]
    norm_num
  · rw [trunc_secret bs payload hsec]
    refine List.all_eq_true.mpr fun c hc => ?_
    obtain ⟨r, rfl⟩ := mem_hmacSha256Hex (List.mem_of_mem_take hc)
    exact (hexDigitChar_props r).1
  · rw [trunc_secret bs payload hsec, trunc_secret bs2 payload hsec]
  · rw [trunc_nosecret]
    exact pyLastGroup_uuid4_length hbs
  · rw [trunc_nosecret]
    refine List.all_eq_true.mpr fun c hc => ?_
    obtain ⟨r, rfl⟩ := mem_pyLastGroup_uuid4 hbs hc
    exact (hexDigitChar_props r).1

theorem claim_C7_witness :
    trunc_sha256_hmac_else_nonce [0, 1, 2, 3, 4, 5, 6, 7, 8, 9, 10, 11, 12, 13, 14, 15]
        ("20241105-1108-5200-1200".toList) ("sixteen-chars-ok".toList) =
        (hmacSha256Hex ("sixteen-chars-ok".toList) ("20241105-1108-5200-1200".toList)).take 12 ∧
      (trunc_sha256_hmac_else_nonce [0, 1, 2, 3, 4, 5, 6, 7, 8, 9, 10, 11, 12, 13, 14, 15]
        ("20241105-1108-5200-1200".toList) ("sixteen-chars-ok".toList)).length = 12 ∧
      (trunc_sha256_hmac_else_nonce [0, 1, 2, 3, 4, 5, 6, 7, 8, 9, 10, 11, 12, 13, 14, 15]
        ("20241105-1108-5200-1200".toList) ("sixteen-chars-ok".toList)).all isHexLowerC = true ∧
      trunc_sha256_hmac_else_nonce [0, 1, 2, 3, 4, 5, 6, 7, 8, 9, 10, 11, 12, 13, 14, 15]
          ("20241105-1108-5200-1200".toList) ("sixteen-chars-ok".toList) =
        trunc_sha256_hmac_else_nonce [255, 1, 2, 3, 4, 5, 6, 7, 8, 9, 10, 11, 12, 13, 14, 15]
          ("20241105-1108-5200-1200".toList) ("sixteen-chars-ok".toList) ∧
      (trunc_sha256_hmac_else_nonce [0, 1, 2, 3, 4, 5, 6, 7, 8, 9, 10, 11, 12, 13, 14, 15]
        ("20241105-1108-5200-1200".toList) []).length = 12 ∧
      (trunc_sha256_hmac_else_nonce [0, 1, 2, 3, 4, 5, 6, 7, 8, 9, 10, 11, 12, 13, 14, 15]
        ("20241105-1108-5200-1200".toList) []).all isHexLowerC = true :=
  claim_C7 ("20241105-1108-5200-1200".toList) ("sixteen-chars-ok".toList)
    [0, 1, 2, 3, 4, 5, 6, 7, 8, 9, 10, 11, 12, 13, 14, 15]
    [255, 1, 2, 3, 4, 5, 6, 7, 8, 9, 10, 11, 12, 13, 14, 15] (by decide) (by decide)

theorem init_ok_value {ts : PyDT} {bs : List Nat} {v secret ud : Str} {h : HLID} (hv : v ≠ [])
    (hok : HLID.init ts bs (some v) secret ud = .ok h) : h._value = transmorph v := by
  unfold HLID.init at hok
  cases hcu : checkUserData ud with
  | some e => rw [hcu] at hok; simp at hok
  | none =>
    rw [hcu] at hok
    simp only [Option.getD_some] at hok
    rw [if_pos hv] at hok
    by_cases hlc : pyLowerStr v ≠ v
    · rw [if_pos hlc] at hok; simp at hok
    · rw [if_neg hlc] at hok
      split at hok
      · simp at hok
      · split at hok
        · simp at hok
        · split at hok
          · simp at hok
          · simp only [Except.ok.injEq] at hok
            subst hok
            simp_all

/--
Claim C10 counterexample: for a 32-character compact input the stored value
is re-hyphenated first, so the `user_data` accessor does NOT return the
characters at offsets `[21:23]` of the supplied value: parsing
`202402291234567800ff1234567890ab` yields `user_data = "ff"` while the
supplied value's `[21:23]` slice is `"23"`.
-/
theorem claim_C10_counterexample :
    HLID.init ⟨2024, 1, 1, 0, 0, 0, 0, some 0⟩ []
        (some ("202402291234567800ff1234567890ab".toList)) [] ("00".toList) =
      .ok ⟨"20240229-1234-5678-00ff-1234567890ab".toList, false⟩ ∧
      HLID.user_data ⟨"20240229-1234-5678-00ff-1234567890ab".toList, false⟩ = "ff".toList ∧
      pySlice 21 23 ("202402291234567800ff1234567890ab".toList) = "23".toList ∧
      ("ff".toList : Str) ≠ "23".toList := by
  refine ⟨rfl, rfl, rfl, by decide⟩

/--
Claim C10 (amended): when the constructor is given an explicit value string,
the `user_data` argument is still validated — each user-data check failure
aborts construction with its error — but is otherwise ignored: it does not
affect the result, and the `user_data` accessor returns the characters at
offsets `[21:23]` of the stored `raw_value`, i.e. of the supplied value after
the 32-character hyphen re-insertion (of the supplied value itself when it is
not 32 characters long).
-/
theorem claim_C10 (ts : PyDT) (bs : List Nat) (v secret ud ud2 : Str) (e : PyErr)
    (h : HLID) (hv : v ≠ []) :
    (checkUserData ud = some e → HLID.init ts bs (some v) secret ud = .error e) ∧
      (checkUserData ud = none → checkUserData ud2 = none →
        HLID.init ts bs (some v) secret ud = HLID.init ts bs (some v) secret ud2) ∧
      (HLID.init ts bs (some v) secret ud = .ok h →
        h.user_data = pySlice 21 23 (transmorph v)) := by
  refine ⟨fun he => init_ud_error ts bs _ secret he, fun h1 h2 => ?_, fun hok => ?_⟩
  · unfold HLID.init
    rw [h1, h2]
    simp only [Option.getD_some]
    rw [if_pos hv, if_pos hv]
  · unfold HLID.user_data
    rw [init_ok_value hv hok]

theorem claim_C10_witness :
    (checkUserData ("0z".toList) = some .userDataChars →
        HLID.init ⟨2024, 1, 1, 0, 0, 0, 0, some 0⟩ []
          (some ("20240229-1234-5678-00ff-1234567890ab".toList)) [] ("0z".toList) =
          .error .userDataChars) ∧
      (checkUserData ("0z".toList) = none → checkUserData ("ab".toList) = none →
        HLID.init ⟨2024, 1, 1, 0, 0, 0, 0, some 0⟩ []
            (some ("20240229-1234-5678-00ff-1234567890ab".toList)) [] ("0z".toList) =
          HLID.init ⟨2024, 1, 1, 0, 0, 0, 0, some 0⟩ []
            (some ("20240229-1234-5678-00ff-1234567890ab".toList)) [] ("ab".toList)) ∧
      (HLID.init ⟨2024, 1, 1, 0, 0, 0, 0, some 0⟩ []
          (some ("20240229-1234-5678-00ff-1234567890ab".toList)) [] ("0z".toList) =
          .ok ⟨"20240229-1234-5678-00ff-1234567890ab".toList, false⟩ →
        HLID.user_data ⟨"20240229-1234-5678-00ff-1234567890ab".toList, false⟩ =
          pySlice 21 23 (transmorph ("20240229-1234-5678-00ff-1234567890ab".toList))) :=
  claim_C10 ⟨2024, 1, 1, 0, 0, 0, 0, some 0⟩ []
    ("20240229-1234-5678-00ff-1234567890ab".toList) [] ("0z".toList) ("ab".toList)
    .userDataChars ⟨"20240229-1234-5678-00ff-1234567890ab".toList, false⟩ (by decide)

/--
Claim C6: in string parsing the structural check comes last: an input with
uppercase characters fails with `MustBeLowercase` whatever else is wrong
with it, and with a (≥16-char) secret whose suffix does not match, any
input — structurally valid or not — fails with `HmacCheckFailed`, never
`InvalidValue`.
-/
theorem claim_C6 (ts : PyDT) (bs : List Nat) (v secret ud : Str)
    (hud : checkUserData ud = none) :
    (v ≠ [] → pyLowerStr v ≠ v →
      HLID.init ts bs (some v) secret ud = .error .mustBeLowercase) ∧
      (v ≠ [] → pyLowerStr v = v → 16 ≤ secret.length →
        pyLastGroup (transmorph v) ≠
          trunc_sha256_hmac_else_nonce bs (joinH (splitH (transmorph v)).dropLast) secret →
        HLID.init ts bs (some v) secret ud = .error .hmacCheckFailed) := by
  refine ⟨fun hv hlc => init_mustBeLowercase ts bs secret hud hv hlc,
    fun hv hlc hsec hne => ?_⟩
  rw [init_value_secret ts bs hud hv hlc hsec, if_pos hne]

theorem claim_C6_witness :
    (("NOTLOWER-0000-0000-00ff".toList : Str) ≠ [] →
      pyLowerStr ("NOTLOWER-0000-0000-00ff".toList) ≠ "NOTLOWER-0000-0000-00ff".toList →
      HLID.init ⟨2024, 1, 1, 0, 0, 0, 0, some 0⟩ []
          (some ("NOTLOWER-0000-0000-00ff".toList)) ("sixteen-chars-ok".toList) ("00".toList) =
        .error .mustBeLowercase) ∧
      (("NOTLOWER-0000-0000-00ff".toList : Str) ≠ [] →
        pyLowerStr ("NOTLOWER-0000-0000-00ff".toList) = "NOTLOWER-0000-0000-00ff".toList →
        16 ≤ ("sixteen-chars-ok".toList : Str).length →
        pyLastGroup (transmorph ("NOTLOWER-0000-0000-00ff".toList)) ≠
          trunc_sha256_hmac_else_nonce []
            (joinH (splitH (transmorph ("NOTLOWER-0000-0000-00ff".toList))).dropLast)
            ("sixteen-chars-ok".toList) →
        HLID.init ⟨2024, 1, 1, 0, 0, 0, 0, some 0⟩ []
            (some ("NOTLOWER-0000-0000-00ff".toList)) ("sixteen-chars-ok".toList)
            ("00".toList) =
          .error .hmacCheckFailed) :=
  claim_C6 ⟨2024, 1, 1, 0, 0, 0, 0, some 0⟩ [] ("NOTLOWER-0000-0000-00ff".toList)
    ("sixteen-chars-ok".toList) ("00".toList) (by decide)

/--
Claim C5: parsing with a ≥16-character secret recomputes the keyed-hash
suffix over all hyphen-groups of the stored value except the last and
compares it with the last group: a mismatch aborts with `HmacCheckFailed`;
on a match construction either succeeds with `is_signed = true` or fails
later with the structural `InvalidValue` error, and every successfully
produced Identifier is signed.
-/
theorem claim_C5 (ts : PyDT) (bs : List Nat) (v secret ud : Str) (h : HLID)
    (hud : checkUserData ud = none) (hv : v ≠ []) (hlc : pyLowerStr v = v)
    (hsec : 16 ≤ secret.length) :
    (pyLastGroup (transmorph v) ≠
        trunc_sha256_hmac_else_nonce bs (joinH (splitH (transmorph v)).dropLast) secret →
      HLID.init ts bs (some v) secret ud = .error .hmacCheckFailed) ∧
      (pyLastGroup (transmorph v) =
          trunc_sha256_hmac_else_nonce bs (joinH (splitH (transmorph v)).dropLast) secret →
        HLID.init ts bs (some v) secret ud = .ok ⟨transmorph v, true⟩ ∨
          HLID.init ts bs (some v) secret ud = .error .invalidValue) ∧
      (HLID.init ts bs (some v) secret ud = .ok h → h._is_signed = true) := by
  refine ⟨fun hne => ?_, fun heq => ?_, fun hok => ?_⟩
  · rw [init_value_secret ts bs hud hv hlc hsec, if_pos hne]
  · rw [init_value_secret ts bs hud hv hlc hsec, if_neg (not_not_intro heq)]
    cases hdt : HLID.datetime ⟨transmorph v, true⟩ with
    | error e => right; rfl
    | ok dtv => left; rfl
  · rw [init_value_secret ts bs hud hv hlc hsec] at hok
    split at hok
    · simp at hok
    · split at hok
      · simp at hok
      · simp only [Except.ok.injEq] at hok
        subst hok
        rfl

theorem claim_C5_witness :
    (pyLastGroup (transmorph ("20240229-1234-5678-00ff-1234567890ab".toList)) ≠
        trunc_sha256_hmac_else_nonce []
          (joinH (splitH (transmorph ("20240229-1234-5678-00ff-1234567890ab".toList))).dropLast)
          ("sixteen-chars-ok".toList) →
      HLID.init ⟨2024, 1, 1, 0, 0, 0, 0, some 0⟩ []
          (some ("20240229-1234-5678-00ff-1234567890ab".toList))
          ("sixteen-chars-ok".toList) ("00".toList) =
        .error .hmacCheckFailed) ∧
      (pyLastGroup (transmorph ("20240229-1234-5678-00ff-1234567890ab".toList)) =
          trunc_sha256_hmac_else_nonce []
            (joinH (splitH (transmorph ("20240229-1234-5678-00ff-1234567890ab".toList))).dropLast)
            ("sixteen-chars-ok".toList) →
        HLID.init ⟨2024, 1, 1, 0, 0, 0, 0, some 0⟩ []
            (some ("20240229-1234-5678-00ff-1234567890ab".toList))
            ("sixteen-chars-ok".toList) ("00".toList) =
          .ok ⟨transmorph ("20240229-1234-5678-00ff-1234567890ab".toList), true⟩ ∨
          HLID.init ⟨2024, 1, 1, 0, 0, 0, 0, some 0⟩ []
            (some ("20240229-1234-5678-00ff-1234567890ab".toList))
            ("sixteen-chars-ok".toList) ("00".toList) =
          .error .invalidValue) ∧
      (HLID.init ⟨2024, 1, 1, 0, 0, 0, 0, some 0⟩ []
          (some ("20240229-1234-5678-00ff-1234567890ab".toList))
          ("sixteen-chars-ok".toList) ("00".toList) =
        .ok ⟨"20240229-1234-5678-00ff-1234567890ab".toList, true⟩ →
        HLID._is_signed ⟨"20240229-1234-5678-00ff-1234567890ab".toList, true⟩ = true) :=
  claim_C5 ⟨2024, 1, 1, 0, 0, 0, 0, some 0⟩ []
    ("20240229-1234-5678-00ff-1234567890ab".toList) ("sixteen-chars-ok".toList)
    ("00".toList) ⟨"20240229-1234-5678-00ff-1234567890ab".toList, true⟩
    (by decide) (by decide) (by decide) (by decide)

theorem length_eq_eight {α : Type} {l : List α} (h : l.length = 8) :
    ∃ a b c d e f g h', l = [a, b, c, d, e, f, g, h'] := by
  have hsplit : l = l.take 4 ++ l.drop 4 := (List.take_append_drop 4 l).symm
  obtain ⟨a, b, c, d, h1⟩ := @length_eq_four _ (l.take 4) (by simp [List.length_take, h])
  obtain ⟨e, f, g, h', h2⟩ := @length_eq_four _ (l.drop 4) (by simp [List.length_drop, h])
  refine ⟨a, b, c, d, e, f, g, h', ?_⟩
  rw [hsplit, h1, h2]
  rfl

theorem parseDigitsU_bound {l : List Char} :
    ∀ {acc n : Nat}, (∀ c ∈ l, c ≠ '_') → parseDigitsU acc l = some n →
      n < (acc + 1) * 10 ^ l.length := by
  induction l with
  | nil =>
    intro acc n _ hp
    rw [show parseDigitsU acc [] = some acc from rfl, Option.some.injEq] at hp
    subst hp
    simp only [List.length_nil, pow_zero, Nat.mul_one]
    omega
  | cons c t ih =>
    intro acc n hu hp
    rw [parseDigitsU_cons, if_neg (hu c (List.mem_cons_self ..))] at hp
    by_cases hd : isDigitC c = true
    · rw [if_pos hd] at hp
      have hdv : digitVal c ≤ 9 := by
        simp only [isDigitC, Bool.and_eq_true, decide_eq_true_eq] at hd
        unfold digitVal
        omega
      have hb := ih (fun x hx => hu x (List.mem_cons_of_mem _ hx)) hp
      have h1 : (acc * 10 + digitVal c + 1) * 10 ^ t.length ≤
          (acc + 1) * 10 ^ (c :: t).length := by
        rw [List.length_cons, pow_succ]
        calc (acc * 10 + digitVal c + 1) * 10 ^ t.length
            ≤ ((acc + 1) * 10) * 10 ^ t.length :=
              Nat.mul_le_mul_right _ (by omega)
          _ = (acc + 1) * (10 ^ t.length * 10) := by ring
      omega
    · rw [if_neg hd] at hp
      simp at hp

theorem mkDatetimeUtc_ne_subsec (y mo d hh mi s micro : Int) :
    mkDatetimeUtc y mo d hh mi s micro ≠ .error .subsecondOutOfRange := by
  unfold mkDatetimeUtc
  split
  · simp
  · simp

theorem pyInt_hexLower_bound {l : Str} {n : Int} (hlen : l.length = 4)
    (hhex : ∀ c ∈ l, isHexLowerC c = true) (hp : pyInt l = some n) :
    0 ≤ n ∧ n ≤ 9999 := by
  obtain ⟨c1, c2, c3, c4, rfl⟩ := length_eq_four hlen
  have hc1 := isHexLowerC_props (hhex c1 (by simp))
  have hstrip : stripWS [c1, c2, c3, c4] = [c1, c2, c3, c4] :=
    stripWS_eq_self (fun x hx => (isHexLowerC_props (hhex x hx)).1)
  rw [pyInt_of_stripWS_cons hstrip, if_neg hc1.2.1, if_neg hc1.2.2.1,
    parseDecFirst_cons] at hp
  by_cases hd : isDigitC c1 = true
  · rw [if_pos hd] at hp
    cases hq : parseDigitsU (digitVal c1) [c2, c3, c4] with
    | none => rw [hq] at hp; simp at hp
    | some m =>
      rw [hq] at hp
      simp only [Option.map_some', Option.some.injEq] at hp
      have hdv : digitVal c1 ≤ 9 := by
        simp only [isDigitC, Bool.and_eq_true, decide_eq_true_eq] at hd
        unfold digitVal
        omega
      have hb := parseDigitsU_bound
        (fun x hx => (isHexLowerC_props (hhex x (List.mem_cons_of_mem _ hx))).2.2.2.1) hq
      simp only [List.length_cons, List.length_nil] at hb
      have : m < (digitVal c1 + 1) * 10 ^ 3 := hb
      subst hp
      constructor
      · exact Int.natCast_nonneg m
      · have : m ≤ 9999 := by
          have h10 : (digitVal c1 + 1) * 10 ^ 3 ≤ 10000 := by
            have : digitVal c1 + 1 ≤ 10 := by omega
            calc (digitVal c1 + 1) * 10 ^ 3 ≤ 10 * 10 ^ 3 :=
              Nat.mul_le_mul_right _ this
              _ = 10000 := by norm_num
          omega
        rw [show Int.ofNat m = (m : Int) from rfl]
        exact_mod_cast this
  · rw [if_neg hd] at hp
    simp at hp

/--
Claim C9: for a raw value in the canonical fixed-width 36-character layout
(five hyphen-separated groups of lowercase hex of lengths 8-4-4-4-12) the
`SubsecondOutOfRange` branch of the `datetime` accessor is unreachable, and
whenever the 4-digit sub-second field parses at all it parses to an integer
in `[0, 9999]`.
-/
theorem claim_C9 (g1 g2 g3 g4 g5 : Str) (b : Bool) (n : Int)
    (l1 : g1.length = 8) (l2 : g2.length = 4) (l3 : g3.length = 4) (l4 : g4.length = 4)
    (l5 : g5.length = 12)
    (hx : (g1 ++ g2 ++ g3 ++ g4 ++ g5).all isHexLowerC = true) :
    HLID.datetime ⟨g1 ++ '-' :: g2 ++ '-' :: g3 ++ '-' :: g4 ++ '-' :: g5, b⟩ ≠
        .error .subsecondOutOfRange ∧
      (pyInt ((pySlice 16 21 (g1 ++ '-' :: g2 ++ '-' :: g3 ++ '-' :: g4 ++ '-' :: g5)).filter
          (fun c => c ≠ '-')) = some n → 0 ≤ n ∧ n ≤ 9999) := by
  obtain ⟨a1, a2, a3, a4, a5, a6, a7, a8, rfl⟩ := length_eq_eight l1
  obtain ⟨b1, b2, b3, b4, rfl⟩ := length_eq_four l2
  obtain ⟨x1, x2, x3, x4, rfl⟩ := length_eq_four l3
  obtain ⟨y1, y2, y3, y4, rfl⟩ := length_eq_four l4
  have hmem := List.all_eq_true.mp hx
  have hx3 : isHexLowerC x3 = true := hmem x3 (by simp)
  have hx4 : isHexLowerC x4 = true := hmem x4 (by simp)
  have hy1 : isHexLowerC y1 = true := hmem y1 (by simp)
  have hy2 : isHexLowerC y2 = true := hmem y2 (by simp)
  have hall4 : ∀ c ∈ ([x3, x4, y1, y2] : Str), isHexLowerC c = true := by
    intro c hc
    simp only [List.mem_cons, List.not_mem_nil, or_false] at hc
    rcases hc with rfl | rfl | rfl | rfl
    · exact hx3
    · exact hx4
    · exact hy1
    · exact hy2
  have hsl : pySlice 16 21 ([a1, a2, a3, a4, a5, a6, a7, a8] ++
      '-' :: [b1, b2, b3, b4] ++ '-' :: [x1, x2, x3, x4] ++ '-' :: [y1, y2, y3, y4] ++
      '-' :: g5) = [x3, x4, '-', y1, y2] := rfl
  have hfil : (([x3, x4, '-', y1, y2] : Str).filter (fun c => c ≠ '-')) =
      [x3, x4, y1, y2] := by
    simp [List.filter_cons, (isHexLowerC_props hx3).2.2.1, (isHexLowerC_props hx4).2.2.1,
      (isHexLowerC_props hy1).2.2.1, (isHexLowerC_props hy2).2.2.1]
  constructor
  · unfold HLID.datetime
    simp only [hsl, hfil]
    cases hq : pyInt [x3, x4, y1, y2] with
    | none => simp [hq]
    | some m =>
      have hb := pyInt_hexLower_bound (show ([x3, x4, y1, y2] : Str).length = 4 from rfl)
        hall4 hq
      simp only [hq]
      rw [if_neg (show ¬ (m > 9999) by omega)]
      split
      · exact mkDatetimeUtc_ne_subsec _ _ _ _ _ _ _
      · simp
  · intro hp
    rw [hsl, hfil] at hp
    exact pyInt_hexLower_bound (show ([x3, x4, y1, y2] : Str).length = 4 from rfl) hall4 hp

theorem claim_C9_witness :
    HLID.datetime ⟨"20240229".toList ++ '-' :: "1234".toList ++ '-' :: "5699".toList ++
        '-' :: "99ff".toList ++ '-' :: "1234567890ab".toList, false⟩ ≠
        .error .subsecondOutOfRange ∧
      (pyInt ((pySlice 16 21 ("20240229".toList ++ '-' :: "1234".toList ++
          '-' :: "5699".toList ++ '-' :: "99ff".toList ++
          '-' :: "1234567890ab".toList)).filter (fun c => c ≠ '-')) = some 9999 →
        0 ≤ (9999 : Int) ∧ (9999 : Int) ≤ 9999) :=
  claim_C9 ("20240229".toList) ("1234".toList) ("5699".toList) ("99ff".toList)
    ("1234567890ab".toList) false 9999 (by decide) (by decide) (by decide) (by decide)
    (by decide) (by decide)

theorem isDigitC_isHexLowerC {c : Char} (h : isDigitC c = true) : isHexLowerC c = true := by
  unfold isHexLowerC
  rw [h]
  rfl

theorem mem_take_pad {c : Char} {k n j : Nat} (h : c ∈ (pad k n).take j) : c ∈ pad k n :=
  List.mem_of_mem_take h

theorem mem_drop_pad {c : Char} {k n j : Nat} (h : c ∈ (pad k n).drop j) : c ∈ pad k n :=
  List.mem_of_mem_drop h

theorem encValue_shape (u : PyDT) (ud suf : Str)
    (hud2 : ud.length = 2) (hudhex : ud.all isHexLowerC = true)
    (hsuf12 : suf.length = 12) (hsufhex : suf.all isHexLowerC = true) :
    (encValue u ud suf).length = 36 ∧
      ∃ q1 q2 q3 q4 q5 : Str,
        encValue u ud suf = q1 ++ '-' :: q2 ++ '-' :: q3 ++ '-' :: q4 ++ '-' :: q5 ∧
        q1.length = 8 ∧ q2.length = 4 ∧ q3.length = 4 ∧ q4.length = 4 ∧ q5.length = 12 ∧
        (q1 ++ q2 ++ q3 ++ q4 ++ q5).all isHexLowerC = true := by
  refine ⟨by rw [encValue_length, hud2, hsuf12],
    pad 4 u.year ++ pad 2 u.month ++ pad 2 u.day,
    pad 2 u.hour ++ pad 2 u.minute,
    pad 2 u.second ++ (pad 4 (u.microsecond / 100)).take 2,
    (pad 4 (u.microsecond / 100)).drop 2 ++ ud, suf,
    encValue_groups u ud suf,
    by simp [pad_length],
    by simp [pad_length],
    by simp [pad4_take2, pad_length],
    by simp [pad4_drop2, pad_length, hud2],
    hsuf12, ?_⟩
  refine List.all_eq_true.mpr fun c hc => ?_
  simp only [List.append_assoc, List.mem_append] at hc
  rcases hc with h | h | h | h | h | h | h | h | h | h <;>
    first
      | exact isDigitC_isHexLowerC (mem_pad_digit h)
      | exact isDigitC_isHexLowerC (mem_pad_digit (mem_take_pad h))
      | exact isDigitC_isHexLowerC (mem_pad_digit (mem_drop_pad h))
      | exact List.all_eq_true.mp hudhex c h
      | exact List.all_eq_true.mp hsufhex c h

theorem encValue_groups_ne_hyphen (u : PyDT) {ud suf : Str}
    (hudhex : ud.all isHexLowerC = true) (hsufhex : suf.all isHexLowerC = true) :
    (∀ c ∈ pad 4 u.year ++ pad 2 u.month ++ pad 2 u.day, c ≠ '-') ∧
      (∀ c ∈ pad 2 u.hour ++ pad 2 u.minute, c ≠ '-') ∧
      (∀ c ∈ pad 2 u.second ++ (pad 4 (u.microsecond / 100)).take 2, c ≠ '-') ∧
      (∀ c ∈ (pad 4 (u.microsecond / 100)).drop 2 ++ ud, c ≠ '-') ∧
      (∀ c ∈ suf, c ≠ '-') := by
  refine ⟨fun c hc => ?_, fun c hc => ?_, fun c hc => ?_, fun c hc => ?_, fun c hc => ?_⟩ <;>
    simp only [List.append_assoc, List.mem_append] at hc <;>
    first
      | exact (isHexLowerC_props (List.all_eq_true.mp hsufhex c hc)).2.2.1
      | rcases hc with h | h | h <;>
          first
            | exact (isDigitC_props (mem_pad_digit h)).2.2.1
            | exact (isDigitC_props (mem_pad_digit (mem_take_pad h))).2.2.1
      | rcases hc with h | h <;>
          first
            | exact (isDigitC_props (mem_pad_digit h)).2.2.1
            | exact (isDigitC_props (mem_pad_digit (mem_take_pad h))).2.2.1
            | exact (isDigitC_props (mem_pad_digit (mem_drop_pad h))).2.2.1
            | exact (isHexLowerC_props (List.all_eq_true.mp hudhex c h)).2.2.1

theorem joinH_groups_eq_encTsStr (u : PyDT) (ud : Str) :
    joinH [pad 4 u.year ++ pad 2 u.month ++ pad 2 u.day,
      pad 2 u.hour ++ pad 2 u.minute,
      pad 2 u.second ++ (pad 4 (u.microsecond / 100)).take 2,
      (pad 4 (u.microsecond / 100)).drop 2 ++ ud] = encTsStr u ud := by
  show (pad 4 u.year ++ pad 2 u.month ++ pad 2 u.day) ++
      '-' :: ((pad 2 u.hour ++ pad 2 u.minute) ++
        '-' :: ((pad 2 u.second ++ (pad 4 (u.microsecond / 100)).take 2) ++
          '-' :: ((pad 4 (u.microsecond / 100)).drop 2 ++ ud))) = encTsStr u ud
  simp [encTsStr, fmtYmdHmsStr, List.append_assoc, List.cons_append]

theorem encValue_lower_fixed (u : PyDT) {ud suf : Str}
    (hudhex : ud.all isHexLowerC = true) (hsufhex : suf.all isHexLowerC = true) :
    pyLowerStr (encValue u ud suf) = encValue u ud suf := by
  refine pyLowerStr_eq_self fun c hc => ?_
  simp only [encValue, List.mem_append, List.mem_cons] at hc
  rcases hc with h | h | h
  · rcases mem_encTsStr h with h2 | h2 | h2
    · exact (isDigitC_props h2).2.2.2.2
    · subst h2; left; decide
    · exact (isHexLowerC_props (List.all_eq_true.mp hudhex c h2)).2.2.2.2
  · subst h; left; decide
  · exact (isHexLowerC_props (List.all_eq_true.mp hsufhex c h)).2.2.2.2

theorem astimezoneUtc_tz (dt : PyDT) : (astimezoneUtc dt).tzOffset = some 0 := rfl

theorem astimezoneUtc_microsecond (dt : PyDT) (hmc : dt.microsecond < 1000000) :
    (astimezoneUtc dt).microsecond = dt.microsecond := by
  obtain ⟨y, mo, d, hh, mi, s, mc, tz⟩ := dt
  simp only at hmc
  show ((toEpochMicros ⟨y, mo, d, hh, mi, s, mc, tz⟩).emod 1000000).toNat = mc
  unfold toEpochMicros
  simp only
  generalize daysFromCivil y mo d = D
  generalize tz.getD 0 = off
  have he : (D * 86400 + ((hh * 3600 + mi * 60 + s : Nat) : Int)) * 1000000 + (mc : Nat) -
      off * 1000000 =
      (mc : Int) + (D * 86400 + ((hh * 3600 + mi * 60 + s : Nat) : Int) - off) * 1000000 := by
    ring
  rw [he]
  generalize (D * 86400 + ((hh * 3600 + mi * 60 + s : Nat) : Int) - off) = K
  rw [show ((mc : Int) + K * 1000000).emod 1000000 =
    ((mc : Int) + K * 1000000) % 1000000 from rfl]
  omega

theorem hex_canonical {g1 g2 g3 g4 g5 : Str} (b : Bool)
    (h1 : ∀ c ∈ g1, c ≠ '-') (h2 : ∀ c ∈ g2, c ≠ '-') (h3 : ∀ c ∈ g3, c ≠ '-')
    (h4 : ∀ c ∈ g4, c ≠ '-') (h5 : ∀ c ∈ g5, c ≠ '-') :
    HLID.hex ⟨g1 ++ '-' :: g2 ++ '-' :: g3 ++ '-' :: g4 ++ '-' :: g5, b⟩ =
      g1 ++ g2 ++ g3 ++ g4 ++ g5 := by
  unfold HLID.hex
  have e1 : g1.filter (fun c => !decide (c = '-')) = g1 :=
    List.filter_eq_self.mpr fun c hc => by simp [h1 c hc]
  have e2 : g2.filter (fun c => !decide (c = '-')) = g2 :=
    List.filter_eq_self.mpr fun c hc => by simp [h2 c hc]
  have e3 : g3.filter (fun c => !decide (c = '-')) = g3 :=
    List.filter_eq_self.mpr fun c hc => by simp [h3 c hc]
  have e4 : g4.filter (fun c => !decide (c = '-')) = g4 :=
    List.filter_eq_self.mpr fun c hc => by simp [h4 c hc]
  have e5 : g5.filter (fun c => !decide (c = '-')) = g5 :=
    List.filter_eq_self.mpr fun c hc => by simp [h5 c hc]
  simp [List.filter_append, List.filter_cons, e1, e2, e3, e4, e5, List.append_assoc]

theorem transmorph_concat {g1 g2 g3 g4 g5 : Str}
    (l1 : g1.length = 8) (l2 : g2.length = 4) (l3 : g3.length = 4) (l4 : g4.length = 4)
    (l5 : g5.length = 12) :
    transmorph (g1 ++ g2 ++ g3 ++ g4 ++ g5) =
      g1 ++ '-' :: g2 ++ '-' :: g3 ++ '-' :: g4 ++ '-' :: g5 := by
  obtain ⟨a1, a2, a3, a4, a5, a6, a7, a8, rfl⟩ := length_eq_eight l1
  obtain ⟨b1, b2, b3, b4, rfl⟩ := length_eq_four l2
  obtain ⟨c1, c2, c3, c4, rfl⟩ := length_eq_four l3
  obtain ⟨d1, d2, d3, d4, rfl⟩ := length_eq_four l4
  unfold transmorph
  rw [if_pos (by simp [List.length_append, l5])]
  rw [show pySlice 0 8 ([a1, a2, a3, a4, a5, a6, a7, a8] ++ [b1, b2, b3, b4] ++
      [c1, c2, c3, c4] ++ [d1, d2, d3, d4] ++ g5) = [a1, a2, a3, a4, a5, a6, a7, a8] from rfl]
  rw [show pySlice 8 12 ([a1, a2, a3, a4, a5, a6, a7, a8] ++ [b1, b2, b3, b4] ++
      [c1, c2, c3, c4] ++ [d1, d2, d3, d4] ++ g5) = [b1, b2, b3, b4] from rfl]
  rw [show pySlice 12 16 ([a1, a2, a3, a4, a5, a6, a7, a8] ++ [b1, b2, b3, b4] ++
      [c1, c2, c3, c4] ++ [d1, d2, d3, d4] ++ g5) = [c1, c2, c3, c4] from rfl]
  rw [show pySlice 16 20 ([a1, a2, a3, a4, a5, a6, a7, a8] ++ [b1, b2, b3, b4] ++
      [c1, c2, c3, c4] ++ [d1, d2, d3, d4] ++ g5) = [d1, d2, d3, d4] from rfl]
  rw [show pySlice 20 32 ([a1, a2, a3, a4, a5, a6, a7, a8] ++ [b1, b2, b3, b4] ++
      [c1, c2, c3, c4] ++ [d1, d2, d3, d4] ++ g5) = g5.take 12 from rfl]
  rw [← l5, List.take_length]

/--
Claim C2 counterexample: the round trip through the compact form does not
hold for every Identifier.  The 28-character value
`20240101-0000-0000-00ff-aaaa` is accepted by the constructor, but parsing
its 24-character `hex` form fails with `InvalidValue`.
-/
theorem claim_C2_counterexample :
    HLID.init ⟨2024, 1, 1, 0, 0, 0, 0, some 0⟩ []
        (some ("20240101-0000-0000-00ff-aaaa".toList)) [] ("00".toList) =
      .ok ⟨"20240101-0000-0000-00ff-aaaa".toList, false⟩ ∧
      HLID.hex ⟨"20240101-0000-0000-00ff-aaaa".toList, false⟩ =
        "202401010000000000ffaaaa".toList ∧
      HLID.init ⟨2024, 1, 1, 0, 0, 0, 0, some 0⟩ []
        (some ("202401010000000000ffaaaa".toList)) [] ("00".toList) =
      .error .invalidValue :=
  ⟨rfl, rfl, rfl⟩

/--
Claim C2 (amended): for every Identifier whose `raw_value` is in the
canonical 36-character layout (five hyphen-separated lowercase-hex groups of
lengths 8-4-4-4-12; every value the generator produces has this shape),
parsing its 32-character `hex` form with no secret succeeds and yields an
Identifier equal to it under `__eq__`.
-/
theorem claim_C2 (ts : PyDT) (bs : List Nat) (g1 g2 g3 g4 g5 : Str) (b : Bool)
    (l1 : g1.length = 8) (l2 : g2.length = 4) (l3 : g3.length = 4) (l4 : g4.length = 4)
    (l5 : g5.length = 12)
    (hx : (g1 ++ g2 ++ g3 ++ g4 ++ g5).all isHexLowerC = true)
    (hok : (HLID.datetime
      ⟨g1 ++ '-' :: g2 ++ '-' :: g3 ++ '-' :: g4 ++ '-' :: g5, b⟩).isOk = true) :
    HLID.init ts bs
        (some (HLID.hex ⟨g1 ++ '-' :: g2 ++ '-' :: g3 ++ '-' :: g4 ++ '-' :: g5, b⟩))
        [] ("00".toList) =
      .ok ⟨g1 ++ '-' :: g2 ++ '-' :: g3 ++ '-' :: g4 ++ '-' :: g5, false⟩ ∧
      HLID.eqPy ⟨g1 ++ '-' :: g2 ++ '-' :: g3 ++ '-' :: g4 ++ '-' :: g5, false⟩
        (.hlidVal ⟨g1 ++ '-' :: g2 ++ '-' :: g3 ++ '-' :: g4 ++ '-' :: g5, b⟩) = true := by
  have hmem := List.all_eq_true.mp hx
  have hno : ∀ c ∈ g1 ++ g2 ++ g3 ++ g4 ++ g5, c ≠ '-' :=
    fun c hc => (isHexLowerC_props (hmem c hc)).2.2.1
  have n1 : ∀ c ∈ g1, c ≠ '-' := fun c hc => hno c (by simp [hc])
  have n2 : ∀ c ∈ g2, c ≠ '-' := fun c hc => hno c (by simp [hc])
  have n3 : ∀ c ∈ g3, c ≠ '-' := fun c hc => hno c (by simp [hc])
  have n4 : ∀ c ∈ g4, c ≠ '-' := fun c hc => hno c (by simp [hc])
  have n5 : ∀ c ∈ g5, c ≠ '-' := fun c hc => hno c (by simp [hc])
  rw [hex_canonical b n1 n2 n3 n4 n5]
  have hlen32 : (g1 ++ g2 ++ g3 ++ g4 ++ g5).length = 32 := by
    simp [List.length_append, l1, l2, l3, l4, l5]
  have hne : (g1 ++ g2 ++ g3 ++ g4 ++ g5) ≠ [] := by
    intro e
    rw [e] at hlen32
    simp at hlen32
  have hlc : pyLowerStr (g1 ++ g2 ++ g3 ++ g4 ++ g5) = g1 ++ g2 ++ g3 ++ g4 ++ g5 :=
    pyLowerStr_eq_self fun c hc => (isHexLowerC_props (hmem c hc)).2.2.2.2
  rw [init_value_nosecret ts bs (show checkUserData ("00".toList) = none from rfl) hne hlc]
  rw [transmorph_concat l1 l2 l3 l4 l5]
  cases hdt : HLID.datetime ⟨g1 ++ '-' :: g2 ++ '-' :: g3 ++ '-' :: g4 ++ '-' :: g5, b⟩ with
  | error e =>
    rw [hdt] at hok
    simp [Except.isOk, Except.toBool] at hok
  | ok dtv =>
    rw [show HLID.datetime ⟨g1 ++ '-' :: g2 ++ '-' :: g3 ++ '-' :: g4 ++ '-' :: g5, false⟩ =
      .ok dtv from hdt]
    exact ⟨rfl, by simp [HLID.eqPy]⟩

theorem claim_C2_witness :
    HLID.init ⟨2024, 1, 1, 0, 0, 0, 0, some 0⟩ []
        (some (HLID.hex ⟨"20240229".toList ++ '-' :: "1234".toList ++ '-' :: "5678".toList ++
          '-' :: "00ff".toList ++ '-' :: "1234567890ab".toList, true⟩))
        [] ("00".toList) =
      .ok ⟨"20240229".toList ++ '-' :: "1234".toList ++ '-' :: "5678".toList ++
        '-' :: "00ff".toList ++ '-' :: "1234567890ab".toList, false⟩ ∧
      HLID.eqPy ⟨"20240229".toList ++ '-' :: "1234".toList ++ '-' :: "5678".toList ++
          '-' :: "00ff".toList ++ '-' :: "1234567890ab".toList, false⟩
        (.hlidVal ⟨"20240229".toList ++ '-' :: "1234".toList ++ '-' :: "5678".toList ++
          '-' :: "00ff".toList ++ '-' :: "1234567890ab".toList, true⟩) = true :=
  claim_C2 ⟨2024, 1, 1, 0, 0, 0, 0, some 0⟩ [] ("20240229".toList) ("1234".toList)
    ("5678".toList) ("00ff".toList) ("1234567890ab".toList) true
    (by decide) (by decide) (by decide) (by decide) (by decide) (by decide) (by decide)

theorem from_datetime_eq (bs : List Nat) (dt : PyDT) {off : Int} (ud secret : Str)
    (htz : dt.tzOffset = some off) (hud : checkUserData ud = none) :
    HLID.from_datetime bs dt ud secret =
      HLID.init (astimezoneUtc dt) bs
        (some (encTsStr (astimezoneUtc dt) ud ++
          '-' :: trunc_sha256_hmac_else_nonce bs (encTsStr (astimezoneUtc dt) ud) secret))
        secret ['0', '0'] := by
  have hcond : (dt.tzOffset = none) = False := by rw [htz]; simp
  unfold HLID.from_datetime
  rw [hud]
  simp only [hcond, if_false]
  rw [show (fmtYmdHmsStr (astimezoneUtc dt) ++
      List.take 2 (pad 4 ((astimezoneUtc dt).microsecond / 100)) ++
      '-' :: (List.drop 2 (pad 4 ((astimezoneUtc dt).microsecond / 100)) ++ ud)) =
    encTsStr (astimezoneUtc dt) ud from rfl]

/--
Claim C3: for every timezone-aware datetime whose microsecond field is a
multiple of 100 (representable at 10⁻⁴-second granularity),
`HLID.from_datetime` with the default user data and no secret succeeds, and
the resulting Identifier's `datetime` accessor returns the input normalized
to UTC.
-/
theorem claim_C3 (dt : PyDT) (bs : List Nat) (off : Int)
    (htz : dt.tzOffset = some off) (hmc : dt.microsecond < 1000000)
    (hgran : dt.microsecond % 100 = 0) (hbs : bs.length = 16)
    (hval : validDT (astimezoneUtc dt)) :
    HLID.from_datetime bs dt ['0', '0'] [] =
      .ok ⟨encValue (astimezoneUtc dt) ['0', '0'] (pyLastGroup (uuid4Str bs)), false⟩ ∧
    HLID.datetime ⟨encValue (astimezoneUtc dt) ['0', '0']
        (pyLastGroup (uuid4Str bs)), false⟩ =
      .ok (astimezoneUtc dt) := by
  have hmicro : (astimezoneUtc dt).microsecond / 100 * 100 = (astimezoneUtc dt).microsecond :=
    Nat.div_mul_cancel (Nat.dvd_of_mod_eq_zero
      (by rw [astimezoneUtc_microsecond dt hmc]; exact hgran))
  have h2 : HLID.datetime ⟨encValue (astimezoneUtc dt) ['0', '0']
      (pyLastGroup (uuid4Str bs)), false⟩ = .ok (astimezoneUtc dt) := by
    rw [datetime_encValue (astimezoneUtc dt) ['0', '0'] (pyLastGroup (uuid4Str bs)) false
      rfl hval, hmicro, ← astimezoneUtc_tz dt]
  refine ⟨?_, h2⟩
  rw [from_datetime_eq bs dt ['0', '0'] [] htz rfl, trunc_nosecret]
  rw [show encTsStr (astimezoneUtc dt) ['0', '0'] ++ '-' :: pyLastGroup (uuid4Str bs) =
    encValue (astimezoneUtc dt) ['0', '0'] (pyLastGroup (uuid4Str bs)) from rfl]
  have hsufhex : (pyLastGroup (uuid4Str bs)).all isHexLowerC = true := by
    refine List.all_eq_true.mpr fun c hc => ?_
    obtain ⟨r, rfl⟩ := mem_pyLastGroup_uuid4 hbs hc
    exact (hexDigitChar_props r).1
  have hne : encValue (astimezoneUtc dt) ['0', '0'] (pyLastGroup (uuid4Str bs)) ≠ [] := by
    intro e
    have hl := encValue_length (astimezoneUtc dt) ['0', '0'] (pyLastGroup (uuid4Str bs))
    rw [e] at hl
    simp only [List.length_nil, List.length_cons] at hl
    omega
  have hlc := encValue_lower_fixed (astimezoneUtc dt)
    (show (['0', '0'] : Str).all isHexLowerC = true by decide) hsufhex
  rw [init_value_nosecret (astimezoneUtc dt) bs
    (show checkUserData ['0', '0'] = none from rfl) hne hlc]
  have hlen : (encValue (astimezoneUtc dt) ['0', '0'] (pyLastGroup (uuid4Str bs))).length ≠
      32 := by
    rw [encValue_length, pyLastGroup_uuid4_length hbs]
    simp
  rw [transmorph_eq_self hlen, h2]

theorem claim_C3_witness :
    HLID.from_datetime [0, 1, 2, 3, 4, 5, 6, 7, 8, 9, 10, 11, 12, 13, 14, 15]
        ⟨2024, 3, 1, 12, 20, 30, 123400, some (-7200)⟩ ['0', '0'] [] =
      .ok ⟨encValue (astimezoneUtc ⟨2024, 3, 1, 12, 20, 30, 123400, some (-7200)⟩) ['0', '0']
        (pyLastGroup (uuid4Str [0, 1, 2, 3, 4, 5, 6, 7, 8, 9, 10, 11, 12, 13, 14, 15])),
        false⟩ ∧
    HLID.datetime ⟨encValue (astimezoneUtc ⟨2024, 3, 1, 12, 20, 30, 123400, some (-7200)⟩)
        ['0', '0']
        (pyLastGroup (uuid4Str [0, 1, 2, 3, 4, 5, 6, 7, 8, 9, 10, 11, 12, 13, 14, 15])),
        false⟩ =
      .ok (astimezoneUtc ⟨2024, 3, 1, 12, 20, 30, 123400, some (-7200)⟩) :=
  claim_C3 ⟨2024, 3, 1, 12, 20, 30, 123400, some (-7200)⟩
    [0, 1, 2, 3, 4, 5, 6, 7, 8, 9, 10, 11, 12, 13, 14, 15] (-7200)
    rfl (by decide) (by decide) rfl (by decide)

/--
Claim C4: lexicographic comparison (`__lt__`) of two canonically formatted
raw values is monotonic with the encoded timestamp — in full, it equals the
timestamp comparison, with timestamp ties broken by the user-data byte and
then by the suffix; in particular a strictly earlier encoded timestamp makes
the identifier strictly smaller.
-/
theorem claim_C4 (u1 u2 : PyDT) (ud1 ud2 n1 n2 : Str) (b1 b2 : Bool)
    (hv1 : validDT u1) (hv2 : validDT u2)
    (hud1 : ud1.length = 2) (hud2 : ud2.length = 2) :
    (HLID.ltPy ⟨encValue u1 ud1 n1, b1⟩ (.hlidVal ⟨encValue u2 ud2 n2, b2⟩) =
      some (if tsKey u1 = tsKey u2 then
          (if ud1 = ud2 then lexLt n1 n2 else lexLt ud1 ud2)
        else decide (tsKey u1 < tsKey u2))) ∧
    (tsKey u1 < tsKey u2 →
      HLID.ltPy ⟨encValue u1 ud1 n1, b1⟩ (.hlidVal ⟨encValue u2 ud2 n2, b2⟩) = some true) := by
  have key := @lexLt_encValue u1 u2 ud1 ud2 n1 n2 hv1 hv2 hud1 hud2
  have heq : HLID.ltPy ⟨encValue u1 ud1 n1, b1⟩ (.hlidVal ⟨encValue u2 ud2 n2, b2⟩) =
      some (if tsKey u1 = tsKey u2 then
          (if ud1 = ud2 then lexLt n1 n2 else lexLt ud1 ud2)
        else decide (tsKey u1 < tsKey u2)) := by
    simp only [HLID.ltPy, key]
  refine ⟨heq, fun hlt => ?_⟩
  rw [heq, if_neg (Nat.ne_of_lt hlt)]
  simp [hlt]

theorem claim_C4_witness :
    (HLID.ltPy ⟨encValue ⟨2024, 11, 5, 11, 8, 52, 0, some 0⟩ ['0', '0'] ['f'], true⟩
        (.hlidVal ⟨encValue ⟨2024, 11, 5, 11, 8, 53, 0, some 0⟩ ['0', '1'] ['a'], false⟩) =
      some (if tsKey ⟨2024, 11, 5, 11, 8, 52, 0, some 0⟩ =
            tsKey ⟨2024, 11, 5, 11, 8, 53, 0, some 0⟩ then
          (if (['0', '0'] : Str) = ['0', '1'] then lexLt ['f'] ['a']
            else lexLt ['0', '0'] ['0', '1'])
        else decide (tsKey ⟨2024, 11, 5, 11, 8, 52, 0, some 0⟩ <
          tsKey ⟨2024, 11, 5, 11, 8, 53, 0, some 0⟩))) ∧
    (tsKey ⟨2024, 11, 5, 11, 8, 52, 0, some 0⟩ < tsKey ⟨2024, 11, 5, 11, 8, 53, 0, some 0⟩ →
      HLID.ltPy ⟨encValue ⟨2024, 11, 5, 11, 8, 52, 0, some 0⟩ ['0', '0'] ['f'], true⟩
        (.hlidVal ⟨encValue ⟨2024, 11, 5, 11, 8, 53, 0, some 0⟩ ['0', '1'] ['a'], false⟩) =
      some true) :=
  claim_C4 ⟨2024, 11, 5, 11, 8, 52, 0, some 0⟩ ⟨2024, 11, 5, 11, 8, 53, 0, some 0⟩
    ['0', '0'] ['0', '1'] ['f'] ['a'] true false
    (by decide) (by decide) rfl rfl

/--
Claim C1 counterexample: both halves of the claim fail.  The parse path
accepts the 28-character value `20240105-0000-0000-00ff-bbbb`, so a
constructed Identifier's `raw_value` need not be 36 characters; and on a
36-character generated value the hyphens sit at positions 8, 13, 18 and 23 —
position 16 holds a digit, position 18 holds the hyphen the claim puts at 16.
-/
theorem claim_C1_counterexample :
    (HLID.init ⟨2024, 1, 5, 0, 0, 0, 0, some 0⟩ []
        (some ("20240105-0000-0000-00ff-bbbb".toList)) [] ("00".toList) =
      .ok ⟨"20240105-0000-0000-00ff-bbbb".toList, false⟩ ∧
      ("20240105-0000-0000-00ff-bbbb".toList).length = 28) ∧
    (HLID.init ⟨2024, 11, 5, 11, 8, 52, 0, some 0⟩
        [0, 1, 2, 3, 4, 5, 6, 7, 8, 9, 10, 11, 12, 13, 14, 15] none [] ['0', '0'] =
      .ok ⟨"20241105-1108-5200-0000-0a0b0c0d0e0f".toList, false⟩ ∧
      ("20241105-1108-5200-0000-0a0b0c0d0e0f".toList).get? 16 = some '0' ∧
      ("20241105-1108-5200-0000-0a0b0c0d0e0f".toList).get? 18 = some '-') :=
  ⟨⟨rfl, rfl⟩, rfl, rfl, rfl⟩

/--
Claim C1 (amended): every Identifier built on the generate path (no explicit
value), with or without a secret, has a `raw_value` of exactly 36 characters:
five groups of lowercase hex digits of lengths 8, 4, 4, 4 and 12 separated by
four hyphens (which therefore sit at positions 8, 13, 18 and 23).  The parse
path does not guarantee this shape (see the counterexample).
-/
theorem claim_C1 (ts : PyDT) (bs : List Nat) (ud secret : Str)
    (hval : validDT ts) (hbs : bs.length = 16)
    (hud : checkUserData ud = none) (hudlen : ud.length = 2)
    (hudhex : ud.all isHexLowerC = true)
    (hsec : secret = [] ∨ 16 ≤ secret.length) :
    ∃ h : HLID, HLID.init ts bs none secret ud = .ok h ∧
      h._value.length = 36 ∧
      ∃ g1 g2 g3 g4 g5 : Str,
        h._value = g1 ++ '-' :: g2 ++ '-' :: g3 ++ '-' :: g4 ++ '-' :: g5 ∧
        g1.length = 8 ∧ g2.length = 4 ∧ g3.length = 4 ∧ g4.length = 4 ∧ g5.length = 12 ∧
        (g1 ++ g2 ++ g3 ++ g4 ++ g5).all isHexLowerC = true := by
  rcases hsec with rfl | hsec2
  · have hNhex : (pyLastGroup (uuid4Str bs)).all isHexLowerC = true := by
      refine List.all_eq_true.mpr fun c hc => ?_
      obtain ⟨r, rfl⟩ := mem_pyLastGroup_uuid4 hbs hc
      exact (hexDigitChar_props r).1
    rw [init_gen_nosecret ts bs hud]
    rw [show encTsStr ts ud ++ '-' :: pyLastGroup (uuid4Str bs) =
      encValue ts ud (pyLastGroup (uuid4Str bs)) from rfl]
    rw [datetime_encValue ts ud (pyLastGroup (uuid4Str bs)) false hudlen hval]
    obtain ⟨hlen36, q1, q2, q3, q4, q5, hdec, h8, h4a, h4b, h4c, h12, hhex⟩ :=
      encValue_shape ts ud (pyLastGroup (uuid4Str bs)) hudlen hudhex
        (pyLastGroup_uuid4_length hbs) hNhex
    exact ⟨⟨encValue ts ud (pyLastGroup (uuid4Str bs)), false⟩, rfl, hlen36,
      q1, q2, q3, q4, q5, hdec, h8, h4a, h4b, h4c, h12, hhex⟩
  · rw [init_gen_secret ts bs hud hsec2]
    rw [show encTsStr ts ud ++ '-' :: (hmacSha256Hex secret (encTsStr ts ud)).take 12 =
      encValue ts ud ((hmacSha256Hex secret (encTsStr ts ud)).take 12) from rfl]
    set S := (hmacSha256Hex secret (encTsStr ts ud)).take 12 with hS
    have hS12 : S.length = 12 := by
      rw [hS, List.length_take, hmacSha256Hex_length]
      norm_num
    have hShex : S.all isHexLowerC = true := by
      refine List.all_eq_true.mpr fun c hc => ?_
      rw [hS] at hc
      obtain ⟨r, rfl⟩ := mem_hmacSha256Hex (List.mem_of_mem_take hc)
      exact (hexDigitChar_props r).1
    obtain ⟨hq1, hq2, hq3, hq4, hq5⟩ := encValue_groups_ne_hyphen ts hudhex hShex
    have hlast : pyLastGroup (encValue ts ud S) = S := by
      rw [encValue_groups]
      exact pyLastGroup_canonical hq1 hq2 hq3 hq4 hq5
    have hjoin : joinH (splitH (encValue ts ud S)).dropLast = encTsStr ts ud := by
      rw [encValue_groups, joinH_dropLast_canonical hq1 hq2 hq3 hq4 hq5]
      simp [encTsStr, fmtYmdHmsStr, List.append_assoc, List.cons_append]
    rw [hlast, hjoin]
    rw [if_neg (show ¬ (S ≠ (hmacSha256Hex secret (encTsStr ts ud)).take 12)
      from fun hcon => hcon hS)]
    rw [datetime_encValue ts ud S true hudlen hval]
    obtain ⟨hlen36, q1, q2, q3, q4, q5, hdec, h8, h4a, h4b, h4c, h12, hhex⟩ :=
      encValue_shape ts ud S hudlen hudhex hS12 hShex
    exact ⟨⟨encValue ts ud S, true⟩, rfl, hlen36,
      q1, q2, q3, q4, q5, hdec, h8, h4a, h4b, h4c, h12, hhex⟩

theorem claim_C1_witness :
    ∃ h : HLID, HLID.init ⟨2024, 11, 5, 11, 8, 52, 0, some 0⟩
        [0, 1, 2, 3, 4, 5, 6, 7, 8, 9, 10, 11, 12, 13, 14, 15] none [] ['0', '0'] = .ok h ∧
      h._value.length = 36 ∧
      ∃ g1 g2 g3 g4 g5 : Str,
        h._value = g1 ++ '-' :: g2 ++ '-' :: g3 ++ '-' :: g4 ++ '-' :: g5 ∧
        g1.length = 8 ∧ g2.length = 4 ∧ g3.length = 4 ∧ g4.length = 4 ∧ g5.length = 12 ∧
        (g1 ++ g2 ++ g3 ++ g4 ++ g5).all isHexLowerC = true :=
  claim_C1 ⟨2024, 11, 5, 11, 8, 52, 0, some 0⟩
    [0, 1, 2, 3, 4, 5, 6, 7, 8, 9, 10, 11, 12, 13, 14, 15] ['0', '0'] []
    (by decide) rfl rfl rfl (by decide) (Or.inl rfl)
